import Mathlib

/-!
A shallow embedding of the blog server (golangbg/web-api-development-demo).

The development follows the packages of the repository:

* `pkg/models`   : `Post` (with `Validate` and `Preview`), `User`, `ValidationError`
* `pkg/database` : the store (`SavePost`, `GetPostBySlug`, `SaveUser`,
  `GetUserByUsername`)
* `pkg/server`   : the token service (`CreateToken`, `ParseToken`), the two guards
  (`ReqAuth`, `ReqToken`), the JSON handlers, and the web handlers with their sessions

Go strings are Lean strings, `int64` is `Int` (no arithmetic is done on these values,
only comparisons), a Go result pair `(T, error)` is a Lean pair `T × Option GoError`.
Code of third-party packages (the JSON codec, base64url, HMAC, bcrypt, the Unicode
tables) is a field of `Lib`; what is assumed of it is spelled out in `Lib.Lawful`.
`WebLib` adds what the store and the web handlers call (password hashing, decoding of a
post, forms, cookies, templates).
-/

namespace Blog

/-! ## Go values -/

/-- Values of type `error`.  `ErrNoRows` is the sentinel `sql.ErrNoRows`, which the
handlers recognise by identity; `errorString` is a value of `fmt.Errorf` or
`errors.New`; `jwtValidation` is the `*ValidationError` of the token library, with the
message of its inner error, its bit field `Errors` and its text. -/
inductive GoError where
  | ErrNoRows
  | errorString (msg : String)
  | jwtValidation (Inner : Option String) (Errors : Nat) (text : String)
  deriving DecidableEq, Repr

/-- The method `Error()` of an error value.  For the `ValidationError` of the token
library: the message of the inner error if there is one, else the text, else a fixed
message. -/
def GoError.Error : GoError → String
  | .ErrNoRows => "sql: no rows in result set"
  | .errorString msg => msg
  | .jwtValidation (some inner) _ _ => inner
  | .jwtValidation none _ text => if text ≠ "" then text else "token is invalid"

/-- The dynamic values of type `interface{}` that a claims mapping can hold.
`float64 n` is the `float64` that the JSON decoder produces for the number literal `n`.
`other id` is any value of another kind (a float that is no integer, NaN, a slice, a map,
a struct, a value of another integer type, a function, a string that is not valid UTF-8),
told apart by the number `id`; what the JSON codec makes of it is the field `jsonOther` of
`Lib`. -/
inductive GoValue where
  | nil
  | bool (b : Bool)
  | string (s : String)
  | int (n : Int)
  | float64 (n : Int)
  | other (id : Nat)
  deriving DecidableEq, Repr

/-- A `map[string]interface{}`, as an association list read with `List.lookup`.  The keys
are Lean strings, that is valid UTF-8 text, which the JSON codec leaves as it is. -/
abbrev GoMap := List (String × GoValue)

/-- The instant of a `time.Time`: seconds since January 1, year 1 00:00:00 UTC and the
nanoseconds within the second. -/
structure Time where
  sec : Int
  nsec : Nat
  deriving DecidableEq, Repr

/-- The zero value of `time.Time`. -/
def Time.zero : Time := { sec := 0, nsec := 0 }

/-- Go `Time.IsZero`: the zero time instant. -/
def Time.IsZero (t : Time) : Bool := t.sec == 0 && t.nsec == 0

/-- Seconds between year 1 and 1970, as in package `time`. -/
def unixToInternal : Int := 62135596800

/-- Go `Time.Unix`: seconds since January 1, 1970 UTC. -/
def Time.Unix (t : Time) : Int := t.sec - unixToInternal

/-! ## pkg/models -/

/-- Go `models.ValidationError`. -/
structure ValidationError where
  Field : String
  Err : String
  deriving DecidableEq, Repr

/-- Go `ValidationError.Error`: `fmt.Sprintf("%s: %s", e.Field, e.Err)`. -/
def ValidationError.Error (e : ValidationError) : String :=
  e.Field ++ ": " ++ e.Err

/-- Go `models.Post`. -/
structure Post where
  Slug : String
  UserID : Int
  Author : String
  Title : String
  Body : String
  Created : Time
  Modified : Time
  deriving DecidableEq, Repr

/-- Go `models.Post{}`, the empty post. -/
def Post.zero : Post :=
  { Slug := "", UserID := 0, Author := "", Title := "", Body := "",
    Created := Time.zero, Modified := Time.zero }

/-- Go `Post.Validate`; `none` is the `nil` error. -/
def Post.Validate (p : Post) : Option ValidationError :=
  if p.Slug = "" then
    some { Field := "Slug", Err := "invalid value" }
  else if p.Title = "" then
    some { Field := "Title", Err := "empty" }
  else if p.UserID ≤ 0 then
    some { Field := "UserID", Err := "invalid value" }
  else
    none

/-- Go `models.User`. -/
structure User where
  ID : Int
  Username : String
  Name : String
  Password : String
  deriving DecidableEq, Repr

/-- Go `models.User{}`. -/
def User.zero : User := { ID := 0, Username := "", Name := "", Password := "" }

/-- Go `User.Validate`. -/
def User.Validate (u : User) : Option ValidationError :=
  if u.Username = "" then some { Field := "Username", Err := "empty" } else none

/-! ## pkg/database -/

/-- A row of table `posts(slug, user_id, title, body, created, modified)`. -/
structure PostRow where
  slug : String
  user_id : Int
  title : String
  body : String
  created : Time
  modified : Time
  deriving DecidableEq, Repr

/-- The database behind `DB.conn`: the rows of the two tables, the counter of the
`AUTOINCREMENT` key of `users`, and the failures of the connection: `prepareErr q` is
the error of `conn.Prepare(q)` and `execErr q` the error of running the prepared
statement (other than finding no row), for the statement text `q`. -/
structure DB where
  users : List User
  posts : List PostRow
  userSeq : Int
  prepareErr : String → Option GoError
  execErr : String → Option GoError

/-- The statement text of `SavePost`. -/
def savePostQuery : String :=
  "INSERT OR REPLACE INTO posts(slug, user_id, title, body, created, modified)\n\tvalues(?, ?, ?, ?, ?, ?)"

/-- The statement `INSERT OR REPLACE` on the primary key `slug`. -/
def DB.replacePost (db : DB) (row : PostRow) : DB :=
  { db with posts := db.posts.filter (fun r => r.slug ≠ row.slug) ++ [row] }

/-- Go `DB.SavePost`, with the clock reading `now` of `time.Now()`; the first component is
the database after the call. -/
def DB.SavePost (db : DB) (now : Time) (post : Post) : DB × Post × Option GoError :=
  let post := if post.Created.IsZero then { post with Created := now } else post
  let post := { post with Modified := now }
  match db.prepareErr savePostQuery with
  | some err => (db, Post.zero, some err)
  | none =>
    match db.execErr savePostQuery with
    | some err => (db, Post.zero, some err)
    | none =>
      (db.replacePost
          { slug := post.Slug, user_id := post.UserID, title := post.Title, body := post.Body,
            created := post.Created, modified := post.Modified },
        post, none)

/-- The statement text of `GetUserByUsername`. -/
def getUserQuery : String := "SELECT * FROM users WHERE username=?"

/-- Go `DB.GetUserByUsername`: `QueryRow(username).Scan` gives the first row with that
username, `sql.ErrNoRows` when there is none. -/
def DB.GetUserByUsername (db : DB) (username : String) : User × Option GoError :=
  match db.prepareErr getUserQuery with
  | some err => (User.zero, some err)
  | none =>
    match db.execErr getUserQuery with
    | some err => (User.zero, some err)
    | none =>
      match db.users.find? (fun u => u.Username = username) with
      | none => (User.zero, some GoError.ErrNoRows)
      | some u => (u, none)

/-! ## Package strings -/

/-- Splitting a sequence of characters at every occurrence of `sep`. -/
def splitChars (sep : Char) : List Char → List (List Char)
  | [] => [[]]
  | c :: cs =>
    if c = sep then [] :: splitChars sep cs
    else
      match splitChars sep cs with
      | [] => [[c]]
      | p :: ps => (c :: p) :: ps

/-- Go `strings.Split(s, sep)` for a separator of one character. -/
def Split (s : String) (sep : Char) : List String :=
  (splitChars sep s.data).map String.mk

/-- Go `strings.Join(parts, ".")`. -/
def joinDot : List String → String
  | [] => ""
  | [p] => p
  | p :: ps => p ++ "." ++ joinDot ps

/-- Go `strings.HasPrefix(s, p)`. -/
def startsWith (s p : String) : Bool := p.data.isPrefixOf s.data

/-! ## The token library (github.com/dgrijalva/jwt-go) and the other packages -/

/-- The signing methods that the token library registers. -/
inductive SigningMethod where
  | HS256 | HS384 | HS512
  | RS256 | RS384 | RS512
  | PS256 | PS384 | PS512
  | ES256 | ES384 | ES512
  | NONE
  deriving DecidableEq, Repr

/-- Go `SigningMethod.Alg`. -/
def SigningMethod.Alg : SigningMethod → String
  | .HS256 => "HS256" | .HS384 => "HS384" | .HS512 => "HS512"
  | .RS256 => "RS256" | .RS384 => "RS384" | .RS512 => "RS512"
  | .PS256 => "PS256" | .PS384 => "PS384" | .PS512 => "PS512"
  | .ES256 => "ES256" | .ES384 => "ES384" | .ES512 => "ES512"
  | .NONE => "none"

/-- Go `jwt.GetSigningMethod`: the registered method of that name, if any. -/
def GetSigningMethod (alg : String) : Option SigningMethod :=
  [SigningMethod.HS256, .HS384, .HS512, .RS256, .RS384, .RS512, .PS256, .PS384, .PS512,
    .ES256, .ES384, .ES512, .NONE].find? (fun m => m.Alg = alg)

/-- The type assertion `method.(*jwt.SigningMethodHMAC)`: the three methods `HS256`,
`HS384` and `HS512` are the values of that type. -/
def SigningMethod.isHMAC : SigningMethod → Bool
  | .HS256 | .HS384 | .HS512 => true
  | _ => false

/-- Go `jwt.StandardClaims`. -/
structure StandardClaims where
  Audience : String
  ExpiresAt : Int
  Id : String
  IssuedAt : Int
  Issuer : String
  NotBefore : Int
  Subject : String
  deriving DecidableEq, Repr

/-- Go `server.Claims`: the standard claims and the data map (`none` is the nil map). -/
structure Claims extends StandardClaims where
  Data : Option GoMap
  deriving DecidableEq, Repr

/-- Go `server.authenticationRequest`. -/
structure authenticationRequest where
  Username : String
  Password : String
  deriving DecidableEq, Repr

/-- The functions of other packages that the code calls.  A byte string is a list of
numbers.

* `unicodeToLower`: `unicode.ToLower` on the characters outside ASCII
* `EncodeSegment`, `DecodeSegment`: base64url without padding (package jwt)
* `jsonOther`: what `json.Unmarshal` into an `interface{}` yields for the text that
  `json.Marshal` writes for the value `other id`; `none` when `json.Marshal` fails on it
* `marshalHeader`, `unmarshalHeader`: `json.Marshal` and `json.Unmarshal` of a token header
* `marshalClaims`, `unmarshalClaims`: the same for a value of type `Claims`
* `hmacSum`: the HMAC of a signing string under a key, with the hash of the method
* `formatMethod`: the verb `%v` of package fmt on a signing method
* `durationString`: `Duration.String` of a number of seconds
* `CompareHashAndPassword`: package bcrypt
* `decodeAuthenticationRequest`: `json.Decoder.Decode` of a request body
* `AddDate`: `Time.AddDate`
-/
structure Lib where
  unicodeToLower : Char → Char
  EncodeSegment : List Nat → String
  DecodeSegment : String → Except String (List Nat)
  jsonOther : Nat → Option GoValue
  marshalHeader : GoMap → Except String (List Nat)
  unmarshalHeader : List Nat → Except String GoMap
  marshalClaims : Claims → Except String (List Nat)
  unmarshalClaims : List Nat → Except String Claims
  hmacSum : SigningMethod → String → String → List Nat
  formatMethod : SigningMethod → String
  durationString : Int → String
  CompareHashAndPassword : String → String → Option GoError
  decodeAuthenticationRequest : String → Except GoError authenticationRequest
  AddDate : Time → Int → Int → Int → Time

/-- Go `unicode.ToLower`. -/
def Lib.runeToLower (L : Lib) (c : Char) : Char :=
  if c.toNat < 128 then c.toLower else L.unicodeToLower c

/-- Go `strings.ToLower`. -/
def Lib.ToLower (L : Lib) (s : String) : String :=
  String.mk (s.data.map L.runeToLower)

/-- What the JSON decoder yields for a value that the encoder wrote, when the target has
type `interface{}`: every number comes back as a `float64`; `none` when the encoder fails
on the value. -/
def Lib.json (L : Lib) : GoValue → Option GoValue
  | .int n => some (.float64 n)
  | .other id => L.jsonOther id
  | v => some v

/-- The assignment `m[k] = v`. -/
def GoMap.set (m : GoMap) (k : String) (v : GoValue) : GoMap :=
  (k, v) :: m.filter (fun e => e.1 ≠ k)

/-- What is assumed of the byte and JSON codecs: a segment never holds a dot or a space;
decoding a segment gives back the bytes; marshalling a claims value fails when the encoder
fails on a value of its map; and when the encoder fails on no value of the map,
marshalling a header or a claims value succeeds, and decoding the result gives back the
standard fields and, key by key, the JSON image of each map entry. -/
structure Lib.Lawful (L : Lib) : Prop where
  EncodeSegment_chars : ∀ b, '.' ∉ (L.EncodeSegment b).data ∧ ' ' ∉ (L.EncodeSegment b).data
  DecodeSegment_EncodeSegment : ∀ b, L.DecodeSegment (L.EncodeSegment b) = .ok b
  unmarshalHeader_marshalHeader : ∀ h : GoMap,
    (∀ k v, h.lookup k = some v → L.json v ≠ none) →
    ∃ b h', L.marshalHeader h = .ok b ∧ L.unmarshalHeader b = .ok h' ∧
      ∀ k, h'.lookup k = (h.lookup k).bind L.json
  marshalClaims_error : ∀ (c : Claims) (d : GoMap) (k : String) (v : GoValue),
    c.Data = some d → d.lookup k = some v → L.json v = none →
    ∃ e, L.marshalClaims c = .error e
  unmarshalClaims_marshalClaims : ∀ (c : Claims) (d : GoMap), c.Data = some d →
    (∀ k v, d.lookup k = some v → L.json v ≠ none) →
    ∃ b d', L.marshalClaims c = .ok b ∧
      L.unmarshalClaims b = .ok { c with Data := some d' } ∧
      ∀ k, d'.lookup k = (d.lookup k).bind L.json

/-- Go `jwt.Token`, once its method has been looked up. -/
structure Token where
  Raw : String
  Method : SigningMethod
  Header : GoMap
  Claims : Claims
  Signature : String
  Valid : Bool

/-- The bits of `ValidationError.Errors`. -/
def ValidationErrorMalformed : Nat := 1
def ValidationErrorUnverifiable : Nat := 2
def ValidationErrorSignatureInvalid : Nat := 4
def ValidationErrorExpired : Nat := 16
def ValidationErrorIssuedAt : Nat := 32
def ValidationErrorNotValidYet : Nat := 128

/-- Go `jwt.NewWithClaims`. -/
def NewWithClaims (method : SigningMethod) (claims : Claims) : Token :=
  { Raw := "", Method := method,
    Header := [("typ", .string "JWT"), ("alg", .string method.Alg)],
    Claims := claims, Signature := "", Valid := false }

/-- Go `Token.SigningString`: the error of `json.Marshal` on the header or on the claims
is returned with the empty string. -/
def Token.SigningString (L : Lib) (t : Token) : String × Option GoError :=
  match L.marshalHeader t.Header with
  | .error e => ("", some (.errorString e))
  | .ok header =>
    match L.marshalClaims t.Claims with
    | .error e => ("", some (.errorString e))
    | .ok claims => (joinDot [L.EncodeSegment header, L.EncodeSegment claims], none)

/-- Go `SigningMethod.Sign` with a key of type `[]byte`: the HMAC methods sign, the other
methods refuse the key. -/
def SigningMethod.Sign (L : Lib) (m : SigningMethod) (signingString key : String) :
    String × Option GoError :=
  if m.isHMAC then (L.EncodeSegment (L.hmacSum m key signingString), none)
  else ("", some (.errorString "key is of invalid type"))

/-- Go `SigningMethod.Verify` with a key of type `[]byte`: an HMAC method decodes the
signature and compares it with the HMAC of the signing string; the other methods refuse
the key. -/
def SigningMethod.Verify (L : Lib) (m : SigningMethod) (signingString signature key : String) :
    Option GoError :=
  if m.isHMAC then
    match L.DecodeSegment signature with
    | .error e => some (.errorString e)
    | .ok sig =>
      if sig ≠ L.hmacSum m key signingString then some (.errorString "signature is invalid")
      else none
  else some (.errorString "key is of invalid type")

/-- Go `Token.SignedString`. -/
def Token.SignedString (L : Lib) (t : Token) (key : String) : String × Option GoError :=
  match t.SigningString L with
  | (_, some err) => ("", some err)
  | (sstr, none) =>
    match t.Method.Sign L sstr key with
    | (_, some err) => ("", some err)
    | (sig, none) => (joinDot [sstr, sig], none)

/-- Go `verifyExp` of the token library. -/
def verifyExp (exp now : Int) (required : Bool) : Bool :=
  if exp = 0 then !required else decide (now ≤ exp)

/-- Go `verifyIat` of the token library. -/
def verifyIat (iat now : Int) (required : Bool) : Bool :=
  if iat = 0 then !required else decide (now ≥ iat)

/-- Go `verifyNbf` of the token library. -/
def verifyNbf (nbf now : Int) (required : Bool) : Bool :=
  if nbf = 0 then !required else decide (now ≥ nbf)

/-- Go `StandardClaims.Valid`, at the Unix time `now`: the pair of the inner message and the
error bits; the claims are valid when no bit is set. -/
def StandardClaims.Valid (L : Lib) (c : StandardClaims) (now : Int) : Option String × Nat :=
  let v : Option String × Nat := (none, 0)
  let v := if verifyExp c.ExpiresAt now false = false then
      (some ("token is expired by " ++ L.durationString (now - c.ExpiresAt)),
        v.2 ||| ValidationErrorExpired)
    else v
  let v := if verifyIat c.IssuedAt now false = false then
      (some "Token used before issued", v.2 ||| ValidationErrorIssuedAt)
    else v
  let v := if verifyNbf c.NotBefore now false = false then
      (some "token is not valid yet", v.2 ||| ValidationErrorNotValidYet)
    else v
  v

/-- Go `Parser.ParseUnverified` with a `Claims` target: the token and its three segments.
The token that the library returns next to an error is dropped. -/
def ParseUnverified (L : Lib) (tokenString : String) : Except GoError (Token × List String) :=
  let parts := Split tokenString '.'
  if parts.length ≠ 3 then
    .error (.jwtValidation none ValidationErrorMalformed
      "token contains an invalid number of segments")
  else
    match L.DecodeSegment (parts.getD 0 "") with
    | .error e =>
      if startsWith (L.ToLower tokenString) "bearer " then
        .error (.jwtValidation none ValidationErrorMalformed
          "tokenstring should not contain 'bearer '")
      else .error (.jwtValidation (some e) ValidationErrorMalformed "")
    | .ok headerBytes =>
      match L.unmarshalHeader headerBytes with
      | .error e => .error (.jwtValidation (some e) ValidationErrorMalformed "")
      | .ok header =>
        match L.DecodeSegment (parts.getD 1 "") with
        | .error e => .error (.jwtValidation (some e) ValidationErrorMalformed "")
        | .ok claimBytes =>
          match L.unmarshalClaims claimBytes with
          | .error e => .error (.jwtValidation (some e) ValidationErrorMalformed "")
          | .ok claims =>
            match header.lookup "alg" with
            | some (.string method) =>
              match GetSigningMethod method with
              | none =>
                .error (.jwtValidation none ValidationErrorUnverifiable
                  "signing method (alg) is unavailable.")
              | some m =>
                .ok ({ Raw := tokenString, Method := m, Header := header, Claims := claims,
                       Signature := "", Valid := false }, parts)
            | _ =>
              .error (.jwtValidation none ValidationErrorUnverifiable
                "signing method (alg) is unspecified.")

/-- Go `Parser.ParseWithClaims` of the default parser, at the Unix time `now`, with a key
function that hands out a key of type `[]byte`. -/
def ParseWithClaims (L : Lib) (now : Int) (tokenString : String)
    (keyFunc : Token → Except GoError String) : Except GoError Token :=
  match ParseUnverified L tokenString with
  | .error err => .error err
  | .ok (token, parts) =>
    match keyFunc token with
    | .error (.jwtValidation i e t) => .error (.jwtValidation i e t)
    | .error err => .error (.jwtValidation (some err.Error) ValidationErrorUnverifiable "")
    | .ok key =>
      let vErr := token.Claims.toStandardClaims.Valid L now
      let token := { token with Signature := parts.getD 2 "" }
      let vErr :=
        match token.Method.Verify L (joinDot (parts.take 2)) token.Signature key with
        | some err => (some err.Error, vErr.2 ||| ValidationErrorSignatureInvalid)
        | none => vErr
      if vErr.2 = 0 then .ok { token with Valid := true }
      else .error (.jwtValidation vErr.1 vErr.2 "")

/-! ## pkg/server: the token service -/

/-- Go `server.TokenEncodeString`. -/
def TokenEncodeString : String := "gfe895tu359hjteijte4hjaurhtuh59yjh5e"

/-- Go `server.Issuer`. -/
def Issuer : String := "MyOrganisation"

/-- Go `server.CreateToken`.  The loop over `data` fills the fresh map; an earlier entry of
the association list wins, as it does for `List.lookup`. -/
def CreateToken (L : Lib) (data : GoMap) (expires : Int) : String × Option GoError :=
  let claims : Claims :=
    { Data := some (data.foldr (fun kv m => GoMap.set m kv.1 kv.2) []),
      Audience := "", ExpiresAt := expires, Id := "", IssuedAt := 0, Issuer := Issuer,
      NotBefore := 0, Subject := "" }
  let token := NewWithClaims .HS256 claims
  let token := { token with Claims := claims }
  token.SignedString L TokenEncodeString

/-- The key function that `ParseToken` passes to the library. -/
def ParseToken.keyFunc (L : Lib) (token : Token) : Except GoError String :=
  if !token.Method.isHMAC then
    .error (.errorString ("invalid signing method " ++ L.formatMethod token.Method))
  else .ok TokenEncodeString

/-- Go `server.ParseToken`, at the Unix time `now`; the first component is the claims map,
`none` being the nil map. -/
def ParseToken (L : Lib) (now : Int) (t : String) : Option GoMap × Option GoError :=
  match ParseWithClaims L now t (ParseToken.keyFunc L) with
  | .error err => (none, some err)
  | .ok token =>
    if !token.Valid then (none, some (.errorString "invalid token"))
    else (token.Claims.Data, none)

/-! ## pkg/server: requests, responses and handlers -/

/-- A value stored in `session.Values`. -/
inductive SessionValue where
  | string (s : String)
  | int64 (n : Int)
  | post (p : Post)
  | user (u : User)
  | flashes (fs : List String)
  deriving DecidableEq, Repr

/-- A session of the cookie store: the map `Values`, read with `List.lookup`. -/
structure Session where
  Values : List (String × SessionValue)
  deriving DecidableEq, Repr

/-- What the code reads of a `*http.Request`: `Header` is `r.Header.Get` (the empty string
for a missing header), `Body` the bytes of the body, `FormValue` is `r.FormValue`, `Vars`
is `mux.Vars(r)`, and `session`, `sessionErr` are the two results of
`s.store.Get(r, SessionName)`. -/
structure Request where
  Header : String → String
  Body : String
  FormValue : String → String
  Vars : String → String
  session : Session
  sessionErr : Option GoError

/-- Go `server.postResponse`. -/
structure postResponse where
  Error : String
  Post : Post
  deriving DecidableEq, Repr

/-- Go `server.postsResponse`. -/
structure postsResponse where
  Error : String
  Posts : List Post
  deriving DecidableEq, Repr

/-- Go `server.authenticationResponse`. -/
structure authenticationResponse where
  Error : String
  Token : String
  deriving DecidableEq, Repr

/-- The values that the handlers pass to `answer` as `data`: a bare string or one of the
response structures. -/
inductive Payload where
  | string (s : String)
  | postResponse (r : postResponse)
  | postsResponse (r : postsResponse)
  | authenticationResponse (r : authenticationResponse)
  deriving DecidableEq, Repr

/-- A call made on the `http.ResponseWriter`: `w.Header().Set`, `w.WriteHeader`,
`json.NewEncoder(w).Encode`, `http.Redirect`, `http.Error`, the cookie that a successful
`session.Save` sets, and `Template.ExecuteTemplate` with its data. -/
inductive WriterCall where
  | SetHeader (key value : String)
  | WriteHeader (status : Nat)
  | Encode (data : Payload)
  | Redirect (url : String) (code : Nat)
  | Error (msg : String) (code : Nat)
  | SaveSession (session : Session)
  | ExecuteTemplate (name : String) (data : List (String × SessionValue))
  deriving DecidableEq, Repr

/-- The response of a request: the calls made on the writer so far, oldest first, and
the failure (if any) of encoding a value onto the connection. -/
structure ResponseWriter where
  calls : List WriterCall
  encodeErr : Payload → Option GoError

/-- Recording one more call. -/
def ResponseWriter.call (w : ResponseWriter) (c : WriterCall) : ResponseWriter :=
  { w with calls := w.calls ++ [c] }

/-- The status codes of package `net/http` that the handlers use. -/
def StatusOK : Nat := 200
def StatusFound : Nat := 302
def StatusBadRequest : Nat := 400
def StatusUnauthorized : Nat := 401
def StatusInternalServerError : Nat := 500

/-- Go `server.answer`; `none` is the `nil` data. -/
def answer (w : ResponseWriter) (status : Nat) (data : Option Payload) : ResponseWriter :=
  let w := w.call (.SetHeader "Content-Type" "application/json; charset=utf-8")
  let w := w.call (.WriteHeader status)
  match data with
  | none => w
  | some d =>
    let w := w.call (.Encode d)
    match w.encodeErr d with
    | some err => w.call (.Error err.Error StatusInternalServerError)
    | none => w

/-- What a handler works on: the response writer, the database of the server and the
reading of the clock. -/
structure World where
  w : ResponseWriter
  db : DB
  now : Time

/-- How a handler ends: it returns, or a run-time panic unwinds it. -/
inductive Outcome where
  | done (σ : World)
  | panic (msg : String)

/-- Go `http.HandlerFunc`. -/
abbrev HandlerFunc := Request → World → Outcome

/-- Go `server.getUserFromToken`, at the Unix time `now`. -/
def getUserFromToken (L : Lib) (now : Int) (r : Request) : String × Option GoError :=
  let authData := r.Header "Authorization"
  let parts := Split authData ' '
  if parts.length ≠ 2 ∨ L.ToLower (parts.getD 0 "") ≠ "bearer" then
    ("", some (.errorString "invalid header"))
  else
    match ParseToken L now (parts.getD 1 "") with
    | (_, some _) => ("", some (.errorString "invalid token"))
    | (claims, none) =>
      match (claims.getD []).lookup "activeUser" with
      | some (.string au) => (au, none)
      | _ => ("", some (.errorString "invalid value"))

/-- Go `Server.ReqAuth`.  The type assertion `au.(string)` panics on a value that is not a
string. -/
def ReqAuth (next : HandlerFunc) : HandlerFunc := fun r σ =>
  match r.sessionErr with
  | some _ => .done { σ with w := σ.w.call (.Redirect "/" StatusFound) }
  | none =>
    match r.session.Values.lookup "activeUser" with
    | none => .done { σ with w := σ.w.call (.Redirect "/" StatusFound) }
    | some (.string au) =>
      match (σ.db.GetUserByUsername au).2 with
      | some _ => .done { σ with w := σ.w.call (.Redirect "/" StatusFound) }
      | none => next r σ
    | some _ => .panic "interface conversion: interface is not string"

/-- Go `Server.ReqToken`. -/
def ReqToken (L : Lib) (next : HandlerFunc) : HandlerFunc := fun r σ =>
  match getUserFromToken L σ.now.Unix r with
  | (_, some err) => .done { σ with w := answer σ.w StatusBadRequest (some (.string err.Error)) }
  | (au, none) =>
    match (σ.db.GetUserByUsername au).2 with
    | some _ => .done { σ with w := answer σ.w StatusUnauthorized none }
    | none => next r σ

/-- Go `Server.userAuthenticateAPIHandler`. -/
def userAuthenticateAPIHandler (L : Lib) : HandlerFunc := fun r σ =>
  match L.decodeAuthenticationRequest r.Body with
  | .error err =>
    let data := Payload.authenticationResponse { Error := err.Error, Token := "" }
    .done { σ with w := answer σ.w StatusBadRequest (some data) }
  | .ok req =>
    match σ.db.GetUserByUsername req.Username with
    | (_, some err) =>
      if err = GoError.ErrNoRows then
        let data := Payload.authenticationResponse { Error := "login failed", Token := "" }
        .done { σ with w := answer σ.w StatusBadRequest (some data) }
      else
        let data := Payload.postResponse { Error := err.Error, Post := Post.zero }
        .done { σ with w := answer σ.w StatusBadRequest (some data) }
    | (user, none) =>
      match L.CompareHashAndPassword user.Password req.Password with
      | some _ =>
        let data := Payload.authenticationResponse { Error := "login failed", Token := "" }
        .done { σ with w := answer σ.w StatusBadRequest (some data) }
      | none =>
        match CreateToken L [("activeUser", .string user.Username)]
            (L.AddDate σ.now 0 1 0).Unix with
        | (_, some err) =>
          let data := Payload.authenticationResponse { Error := err.Error, Token := "" }
          .done { σ with w := answer σ.w StatusBadRequest (some data) }
        | (token, none) =>
          let data := Payload.authenticationResponse { Error := "", Token := token }
          .done { σ with w := answer σ.w StatusOK (some data) }

/-- The algorithm that the header of a token string asserts: the string under "alg" in
the decoded first segment, if there is one. -/
def headerAlg (L : Lib) (t : String) : Option String :=
  match L.DecodeSegment ((Split t '.').getD 0 "") with
  | .error _ => none
  | .ok headerBytes =>
    match L.unmarshalHeader headerBytes with
    | .error _ => none
    | .ok header =>
      match header.lookup "alg" with
      | some (.string a) => some a
      | _ => none

/-- The data of a failed login: the error "login failed" and no token. -/
def loginFailed : Payload :=
  .authenticationResponse { Error := "login failed", Token := "" }

/-! ## A reference instance of the library interface

The codecs of `refLib` are simple invertible encodings: a byte string is written as its
numbers in decimal (lowest digit first), each closed by a dash, and a header or claims
value is written field by field, every string led by its length.  Like the JSON codec,
it writes an integer and a `float64` as the same number and reads a number as a
`float64`; of the other values it refuses one and reads back every second one as
another value.  It shows that the assumptions `Lib.Lawful` can be met and gives the theorems
a concrete input; its `hmacSum` is a plain digest without any cryptographic strength. -/

namespace Ref

/-- A number in decimal, lowest digit first, closed by a dash. -/
def encNat (n : Nat) : List Char :=
  (Nat.digits 10 n).map (fun d => Char.ofNat (48 + d)) ++ ['-']

/-- The number of a sequence of decimal digits, lowest digit first. -/
def decNat (cs : List Char) : Nat :=
  Nat.ofDigits 10 (cs.map (fun c => c.toNat - 48))

/-- The segment of a byte string. -/
def EncodeSegment (b : List Nat) : String :=
  String.mk (b.flatMap encNat)

/-- The byte string of a segment: every character is a digit or a dash, and the last
number is closed. -/
def DecodeSegment (s : String) : Except String (List Nat) :=
  if s.data.all (fun c => c.isDigit || c == '-') &&
      (splitChars '-' s.data).getLast? == some [] then
    .ok ((splitChars '-' s.data).dropLast.map decNat)
  else .error "illegal segment"

def serString (s : String) : List Nat :=
  s.data.length :: s.data.map Char.toNat

def serInt (z : Int) : List Nat :=
  [z.toNat, (-z).toNat]

/-- The JSON image of the other values in the reference instance: the value 0 is one
that the encoder refuses (as it does NaN), a value of odd number comes back as the value
of the next number (as a `[]string` comes back as a `[]interface{}`), and a value of
even number comes back as itself. -/
def jsonOther (id : Nat) : Option GoValue :=
  if id = 0 then none else if id % 2 = 1 then some (.other (id + 1)) else some (.other id)

/-- The value that the reference codec reads back. -/
def readBack : GoValue → GoValue
  | .int n => .float64 n
  | .other id => .other (if id % 2 = 1 then id + 1 else id)
  | v => v

def serValue : GoValue → List Nat
  | .nil => [0]
  | .bool b => [1, b.toNat]
  | .string s => 2 :: serString s
  | .int n => 3 :: serInt n
  | .float64 n => 3 :: serInt n
  | .other id => [4, if id % 2 = 1 then id + 1 else id]

/-- Whether the encoder accepts every value that the map holds under a key. -/
def marshals (m : GoMap) : Bool :=
  m.all fun kv => decide (m.lookup kv.1 ≠ some (.other 0))

def serMap (m : GoMap) : List Nat :=
  m.length :: m.flatMap (fun kv => serString kv.1 ++ serValue kv.2)

def serClaims (c : Claims) : List Nat :=
  serString c.Audience ++ (serInt c.ExpiresAt ++ (serString c.Id ++ (serInt c.IssuedAt ++
    (serString c.Issuer ++ (serInt c.NotBefore ++ (serString c.Subject ++
      (match c.Data with
        | none => [0]
        | some d => 1 :: serMap d)))))))

def pString : List Nat → Option (String × List Nat)
  | [] => none
  | n :: rest =>
    if n ≤ rest.length then some (String.mk ((rest.take n).map Char.ofNat), rest.drop n)
    else none

def pInt : List Nat → Option (Int × List Nat)
  | a :: b :: rest => some ((a : Int) - (b : Int), rest)
  | _ => none

def pValue : List Nat → Option (GoValue × List Nat)
  | 0 :: rest => some (.nil, rest)
  | 1 :: b :: rest => some (.bool (b != 0), rest)
  | 2 :: rest => (pString rest).map (fun x => (GoValue.string x.1, x.2))
  | 3 :: rest => (pInt rest).map (fun x => (GoValue.float64 x.1, x.2))
  | 4 :: id :: rest => some (.other id, rest)
  | _ => none

def pEntries : Nat → List Nat → Option (GoMap × List Nat)
  | 0, rest => some ([], rest)
  | n + 1, rest =>
    (pString rest).bind fun k =>
    (pValue k.2).bind fun v =>
    (pEntries n v.2).bind fun m =>
    some ((k.1, v.1) :: m.1, m.2)

def pMap : List Nat → Option (GoMap × List Nat)
  | [] => none
  | n :: rest => pEntries n rest

def pData : List Nat → Option (Option GoMap × List Nat)
  | 0 :: rest => some (none, rest)
  | 1 :: rest => (pMap rest).map (fun x => (some x.1, x.2))
  | _ => none

def pClaims (bs : List Nat) : Option (Claims × List Nat) :=
  (pString bs).bind fun aud =>
  (pInt aud.2).bind fun exp =>
  (pString exp.2).bind fun id =>
  (pInt id.2).bind fun iat =>
  (pString iat.2).bind fun iss =>
  (pInt iss.2).bind fun nbf =>
  (pString nbf.2).bind fun sub =>
  (pData sub.2).bind fun data =>
  some ({ Audience := aud.1, ExpiresAt := exp.1, Id := id.1, IssuedAt := iat.1,
          Issuer := iss.1, NotBefore := nbf.1, Subject := sub.1, Data := data.1 }, data.2)

def marshalHeader (h : GoMap) : Except String (List Nat) :=
  if marshals h then .ok (serMap h) else .error "json: unsupported value"

def marshalClaims (c : Claims) : Except String (List Nat) :=
  if marshals (c.Data.getD []) then .ok (serClaims c) else .error "json: unsupported value"

def unmarshalHeader (bs : List Nat) : Except String GoMap :=
  match pMap bs with
  | some (h, []) => .ok h
  | _ => .error "invalid character"

def unmarshalClaims (bs : List Nat) : Except String Claims :=
  match pClaims bs with
  | some (c, []) => .ok c
  | _ => .error "invalid character"

def decodeAuthenticationRequest (body : String) : Except GoError authenticationRequest :=
  match Split body ':' with
  | [u, p] => .ok { Username := u, Password := p }
  | _ => .error (.errorString "invalid character")

end Ref

/-- The reference instance. -/
def refLib : Lib where
  unicodeToLower := id
  EncodeSegment := Ref.EncodeSegment
  DecodeSegment := Ref.DecodeSegment
  jsonOther := Ref.jsonOther
  marshalHeader := Ref.marshalHeader
  unmarshalHeader := Ref.unmarshalHeader
  marshalClaims := Ref.marshalClaims
  unmarshalClaims := Ref.unmarshalClaims
  hmacSum := fun m key s => Ref.serString m.Alg ++ Ref.serString key ++ Ref.serString s
  formatMethod := SigningMethod.Alg
  durationString := fun d => toString d ++ "s"
  CompareHashAndPassword := fun hash password =>
    if hash = password then none
    else some (.errorString "crypto/bcrypt: hashedPassword is not the hash of the given password")
  decodeAuthenticationRequest := Ref.decodeAuthenticationRequest
  AddDate := fun t years months days =>
    { t with sec := t.sec + 86400 * (365 * years + 30 * months + days) }

/-! ## Concrete inputs -/

namespace Example

/-- The user of the examples. -/
def alice : User := { ID := 1, Username := "alice", Name := "Alice", Password := "pw1" }

/-- A database without failures that holds no rows. -/
def emptyDB : DB :=
  { users := [], posts := [], userSeq := 0, prepareErr := fun _ => none,
    execErr := fun _ => none }

/-- A database without failures that holds one user. -/
def aliceDB : DB :=
  { users := [alice], posts := [], userSeq := 1, prepareErr := fun _ => none,
    execErr := fun _ => none }

/-- A fresh response writer on a sound connection. -/
def freshWriter : ResponseWriter := { calls := [], encodeErr := fun _ => none }

/-- The clock at five seconds after the Unix epoch. -/
def clock : Time := { sec := unixToInternal + 5, nsec := 0 }

/-- A token of three segments whose header asserts the algorithm "none": the header
and the claims of a login without expiry in the reference encoding, and the empty
signature that the method "none" writes. -/
def noneToken : String :=
  joinDot [joinDot [
    refLib.EncodeSegment (Ref.serMap [("typ", .string "JWT"), ("alg", .string "none")]),
    refLib.EncodeSegment (Ref.serClaims
      { Data := some [("activeUser", .string "alice")], Audience := "", ExpiresAt := 0,
        Id := "", IssuedAt := 0, Issuer := Issuer, NotBefore := 0, Subject := "" })],
    ""]

/-- A request with the given Authorization header, body and session. -/
def request (auth body : String) (session : Session) : Request :=
  { Header := fun k => if k = "Authorization" then auth else "", Body := body,
    FormValue := fun _ => "", Vars := fun _ => "", session := session, sessionErr := none }

/-- A wrapped handler, which writes status 204. -/
def next : HandlerFunc := fun _ σ => .done { σ with w := σ.w.call (.WriteHeader 204) }

/-- A post that was never saved. -/
def draft : Post :=
  { Slug := "hi", UserID := 1, Author := "", Title := "Hi", Body := "<p>x</p>",
    Created := Time.zero, Modified := Time.zero }

end Example

/-! ## pkg/models: the preview of a post -/

/-- Whether the text after a `<` completes a match of the pattern `<.*?>`: a `>` comes
before any newline, which the dot does not match. -/
def closesTag : List Char → Bool
  | [] => false
  | c :: cs => if c = '>' then true else if c = '\n' then false else closesTag cs

/-- The call `ReplaceAllString(s, "")` of the pattern `<.*?>` on the characters of `s`:
the leftmost matches, each as short as possible, are dropped.  The flag tells that the
scan is inside a match and drops the characters up to its `>`. -/
def stripTags : Bool → List Char → List Char
  | _, [] => []
  | true, c :: cs => if c = '>' then stripTags false cs else stripTags true cs
  | false, c :: cs =>
    if c = '<' ∧ closesTag cs = true then stripTags true cs else c :: stripTags false cs

/-- The bytes of a character in UTF-8, the encoding of a Go string. -/
def utf8EncodeRune (c : Char) : List Nat :=
  let v := c.toNat
  if v < 0x80 then [v]
  else if v < 0x800 then [0xC0 + v / 64, 0x80 + v % 64]
  else if v < 0x10000 then [0xE0 + v / 4096, 0x80 + v / 64 % 64, 0x80 + v % 64]
  else [0xF0 + v / 262144, 0x80 + v / 4096 % 64, 0x80 + v / 64 % 64, 0x80 + v % 64]

/-- The bytes of a string. -/
def utf8 (cs : List Char) : List Nat :=
  cs.flatMap utf8EncodeRune

/-- Go `Post.Preview`: the bytes of the string it returns.  `len` and the slice
`txt[:chars]` count bytes. -/
def Post.Preview (p : Post) : List Nat :=
  let txt := utf8 (stripTags false p.Body.data)
  let chars := 100
  let chars := if txt.length < chars then txt.length else chars
  txt.take chars

/-- A byte string holds a tag: a part that starts with `<` (60), ends with `>` (62) and has
no newline (10) in between. -/
def HasTag (b : List Nat) : Prop :=
  ∃ pre mid post : List Nat, b = pre ++ 60 :: (mid ++ 62 :: post) ∧ 10 ∉ mid

/-- Whether a byte string has a `>` (62) before any newline (10). -/
def closesBytes : List Nat → Bool
  | [] => false
  | b :: bs => if b = 62 then true else if b = 10 then false else closesBytes bs

/-- No `<` (60) of a byte string is followed by a `>` before a newline. -/
def tagFreeBytes : List Nat → Bool
  | [] => true
  | b :: bs => (decide (b ≠ 60) || !closesBytes bs) && tagFreeBytes bs

/-- No `<` of a text is followed by a `>` before a newline. -/
def tagFreeChars : List Char → Bool
  | [] => true
  | c :: cs => (decide (c ≠ '<') || !closesTag cs) && tagFreeChars cs

/-! ## pkg/database: users and single posts -/

/-- The functions of other packages that the store, the post handlers and the web
handlers call, next to those of `Lib`.

* `GenerateFromPassword`: package bcrypt, with the salt it draws
* `decodePost`: `json.Decoder.Decode` of a request body into a `models.Post`
* `parseFormErr`: the error of `r.ParseForm()`
* `sessionSaveErr`: the error of `session.Save`, which writes the cookie only without one
* `parseFilesErr`: the error of `template.ParseFiles`
* `executeTemplateErr`: the error of `Template.ExecuteTemplate`
-/
structure WebLib extends Lib where
  GenerateFromPassword : String → String × Option GoError
  decodePost : String → Except GoError Post
  parseFormErr : Request → Option GoError
  sessionSaveErr : Session → Option GoError
  parseFilesErr : List String → Option GoError
  executeTemplateErr : String → List (String × SessionValue) → Option GoError

/-- The statement text of `SaveUser`. -/
def saveUserQuery : String :=
  "INSERT OR REPLACE INTO users(username, name, password)\n\tvalues(?, ?, ?)"

/-- The statement `INSERT OR REPLACE` on the unique column `username`: the row of that
username, if there is one, is deleted, and the new row takes the next key of the
`AUTOINCREMENT` column `id`. -/
def DB.replaceUser (db : DB) (username name password : String) : DB :=
  { db with
    users := db.users.filter (fun u => u.Username ≠ username) ++
      [{ ID := db.userSeq + 1, Username := username, Name := name, Password := password }],
    userSeq := db.userSeq + 1 }

/-- Go `DB.SaveUser`; the first component is the database after the call. -/
def DB.SaveUser (L : WebLib) (db : DB) (user : User) (password : String) :
    DB × User × Option GoError :=
  let hashed : User × Option GoError :=
    if password ≠ "" then
      match L.GenerateFromPassword password with
      | (_, some err) => (user, some err)
      | (hash, none) => ({ user with Password := hash }, none)
    else (user, none)
  match hashed with
  | (user, some err) => (db, user, some err)
  | (user, none) =>
    match db.prepareErr saveUserQuery with
    | some err => (db, user, some err)
    | none =>
      match db.execErr saveUserQuery with
      | some err => (db, User.zero, some err)
      | none =>
        (db.replaceUser user.Username user.Name user.Password,
          { user with ID := db.userSeq + 1 }, none)

/-- The statement text of `GetPostBySlug`. -/
def getPostQuery : String :=
  "SELECT posts.slug, posts.user_id, users.name, posts.title, posts.body, posts.created, posts.modified FROM posts LEFT JOIN users ON posts.user_id = users.id WHERE slug=?"

/-- The error of `Scan` for the column `users.name` of a post without user row: the left
join gives NULL, which does not convert to a string. -/
def scanNullName : GoError :=
  .errorString
    "sql: Scan error on column index 2, name \"name\": converting NULL to string is unsupported"

/-- Go `DB.GetPostBySlug`: the row of that slug joined with the user row of its author.
`Scan` fills the fields in the order of the columns and stops at the first that fails. -/
def DB.GetPostBySlug (db : DB) (slug : String) : Post × Option GoError :=
  match db.prepareErr getPostQuery with
  | some err => (Post.zero, some err)
  | none =>
    match db.execErr getPostQuery with
    | some err => (Post.zero, some err)
    | none =>
      match db.posts.find? (fun row => row.slug = slug) with
      | none => (Post.zero, some GoError.ErrNoRows)
      | some row =>
        match db.users.find? (fun u => u.ID = row.user_id) with
        | none => ({ Post.zero with Slug := row.slug, UserID := row.user_id }, some scanNullName)
        | some u =>
          ({ Slug := row.slug, UserID := row.user_id, Author := u.Name, Title := row.title,
             Body := row.body, Created := row.created, Modified := row.modified }, none)

/-! ## pkg/server: the post handlers of the API -/

def StatusCreated : Nat := 201
def StatusNotFound : Nat := 404

/-- A handler returns after its last call on the writer. -/
def World.reply (σ : World) (w : ResponseWriter) : Outcome :=
  .done { σ with w := w }

/-- Go `Server.postCreateUpdateAPIHandler`. -/
def postCreateUpdateAPIHandler (L : WebLib) : HandlerFunc := fun r σ =>
  match L.decodePost r.Body with
  | .error err =>
    σ.reply (answer σ.w StatusBadRequest
      (some (.postResponse { Error := err.Error, Post := Post.zero })))
  | .ok req =>
    match getUserFromToken L.toLib σ.now.Unix r with
    | (_, some err) => σ.reply (answer σ.w StatusBadRequest (some (.string err.Error)))
    | (au, none) =>
      match σ.db.GetUserByUsername au with
      | (_, some err) => σ.reply (answer σ.w StatusBadRequest (some (.string err.Error)))
      | (user, none) =>
        let req := { req with UserID := user.ID }
        match req.Validate with
        | some err =>
          σ.reply (answer σ.w StatusBadRequest
            (some (.postResponse { Error := err.Error, Post := Post.zero })))
        | none =>
          match σ.db.SavePost σ.now req with
          | (_, _, some err) =>
            σ.reply (answer σ.w StatusBadRequest
              (some (.postResponse { Error := err.Error, Post := Post.zero })))
          | (db, post, none) =>
            .done { w := answer σ.w StatusCreated
                      (some (.postResponse { Error := "", Post := post })),
                    db := db, now := σ.now }

/-- Go `Server.postGetAPIHandler`. -/
def postGetAPIHandler : HandlerFunc := fun r σ =>
  match σ.db.GetPostBySlug (r.Vars "slug") with
  | (_, some err) =>
    if err = GoError.ErrNoRows then
      σ.reply (answer σ.w StatusNotFound
        (some (.postResponse { Error := err.Error, Post := Post.zero })))
    else
      σ.reply (answer σ.w StatusBadRequest
        (some (.postResponse { Error := err.Error, Post := Post.zero })))
  | (post, none) =>
    σ.reply (answer σ.w StatusOK (some (.postResponse { Error := "", Post := post })))

/-- The data is a structure with an error field, not a bare string. -/
def Payload.hasErrorField : Payload → Bool
  | .string _ => false
  | .postResponse _ => true
  | .postsResponse _ => true
  | .authenticationResponse _ => true

/-! ## pkg/server: sessions and the web handlers -/

/-- The assignment `session.Values[k] = v`. -/
def Session.set (s : Session) (k : String) (v : SessionValue) : Session :=
  { Values := (k, v) :: s.Values.filter (fun e => e.1 ≠ k) }

/-- The call `delete(session.Values, k)`. -/
def Session.delete (s : Session) (k : String) : Session :=
  { Values := s.Values.filter (fun e => e.1 ≠ k) }

/-- Go `Session.AddFlash`: the message is appended to the list under "_flash"; `none` is
the panic of the type assertion on a value that is no such list. -/
def Session.AddFlash (s : Session) (value : String) : Option Session :=
  match s.Values.lookup "_flash" with
  | none => some (s.set "_flash" (.flashes [value]))
  | some (.flashes fs) => some (s.set "_flash" (.flashes (fs ++ [value])))
  | some _ => none

/-- Go `Session.Flashes`: the list under "_flash" is returned and the key deleted; `none`
is the panic of the type assertion. -/
def Session.Flashes (s : Session) : Option (List String × Session) :=
  match s.Values.lookup "_flash" with
  | none => some ([], s)
  | some (.flashes fs) => some (fs, s.delete "_flash")
  | some _ => none

/-- Go `Session.Save`: the cookie is set unless encoding the session fails; the handlers
drop the error. -/
def Session.Save (L : WebLib) (s : Session) (w : ResponseWriter) : ResponseWriter :=
  match L.sessionSaveErr s with
  | some _ => w
  | none => w.call (.SaveSession s)

/-- The message of the panic of a failed type assertion on a session value. -/
def assertionPanic : String := "interface conversion: interface is of another type"

/-- Go `Server.PrepareData`, on the session that the registry of the request holds:
the writer, the data and the session after the call; `none` is a panic. -/
def PrepareData (L : WebLib) (r : Request) (session : Session) (w : ResponseWriter)
    (data : List (String × SessionValue)) :
    Option (ResponseWriter × List (String × SessionValue) × Session) :=
  match r.sessionErr with
  | some err => some (w.call (.Error err.Error StatusInternalServerError), data, session)
  | none =>
    match session.Flashes with
    | none => none
    | some (flashes, session) =>
      let wd := if flashes.length > 0 then
          (session.Save L w, data ++ [("Flashes", SessionValue.flashes flashes)])
        else (w, data)
      match session.Values.lookup "activeUser" with
      | some activeUser => some (wd.1, wd.2 ++ [("ActiveUser", activeUser)], session)
      | none => some (wd.1, wd.2, session)

/-- The end of the handlers that render a page: `PrepareData` and `ExecuteTemplate`. -/
def render (L : WebLib) (r : Request) (session : Session) (σ : World) (w : ResponseWriter)
    (data : List (String × SessionValue)) : Outcome :=
  match PrepareData L r session w data with
  | none => .panic assertionPanic
  | some (w, data, _) =>
    let w := w.call (.ExecuteTemplate "main" data)
    match L.executeTemplateErr "main" data with
    | some err => σ.reply (w.call (.Error err.Error StatusInternalServerError))
    | none => σ.reply w

/-- Go `Server.postCreateHandler`. -/
def postCreateHandler (L : WebLib) (files : List String) : HandlerFunc := fun r σ =>
  match L.parseFilesErr files with
  | some err => σ.reply (σ.w.call (.Error err.Error StatusInternalServerError))
  | none =>
    match r.sessionErr with
    | some err => σ.reply (σ.w.call (.Error err.Error StatusInternalServerError))
    | none =>
      match r.session.Values.lookup "currentPost" with
      | some currentPost =>
        let session := r.session.delete "currentPost"
        render L r session σ (session.Save L σ.w) [("CurrentPost", currentPost)]
      | none => render L r r.session σ σ.w []

/-- Go `Server.userCreateHandler`. -/
def userCreateHandler (L : WebLib) (files : List String) : HandlerFunc := fun r σ =>
  match L.parseFilesErr files with
  | some err => σ.reply (σ.w.call (.Error err.Error StatusInternalServerError))
  | none =>
    match r.sessionErr with
    | some err => σ.reply (σ.w.call (.Error err.Error StatusInternalServerError))
    | none =>
      match r.session.Values.lookup "currentUser" with
      | some currentUser =>
        let session := r.session.delete "currentUser"
        render L r session σ (session.Save L σ.w) [("CurrentUser", currentUser)]
      | none => render L r r.session σ σ.w []

/-- Go `Server.postSaveHandler`.  The type assertion on "activeUserID" panics when the
session has no such value or one that is not an `int64`. -/
def postSaveHandler (L : WebLib) : HandlerFunc := fun r σ =>
  match L.parseFormErr r with
  | some err => σ.reply (σ.w.call (.Error err.Error StatusInternalServerError))
  | none =>
    let slug := r.FormValue "slug"
    match r.sessionErr with
    | some err => σ.reply (σ.w.call (.Error err.Error StatusInternalServerError))
    | none =>
      match r.session.Values.lookup "activeUserID" with
      | some (.int64 userID) =>
        let post : Post :=
          { Slug := slug, Title := r.FormValue "title", Body := r.FormValue "body",
            UserID := userID, Author := "", Created := Time.zero, Modified := Time.zero }
        match post.Validate with
        | some err =>
          match r.session.AddFlash err.Error with
          | none => .panic assertionPanic
          | some session =>
            let session := session.set "currentPost" (.post post)
            σ.reply ((session.Save L σ.w).call (.Redirect "/new" StatusFound))
        | none =>
          match σ.db.SavePost σ.now post with
          | (_, _, some err) =>
            match r.session.AddFlash ("database error: " ++ err.Error) with
            | none => .panic assertionPanic
            | some session =>
              let session := session.set "currentPost" (.post post)
              σ.reply ((session.Save L σ.w).call (.Redirect "/new" StatusFound))
          | (db, _, none) =>
            .done { w := σ.w.call (.Redirect ("/" ++ post.Slug) StatusFound), db := db,
                    now := σ.now }
      | _ => .panic assertionPanic

/-- Go `Server.userSaveHandler`. -/
def userSaveHandler (L : WebLib) : HandlerFunc := fun r σ =>
  match L.parseFormErr r with
  | some err => σ.reply (σ.w.call (.Error err.Error StatusInternalServerError))
  | none =>
    match r.sessionErr with
    | some err => σ.reply (σ.w.call (.Error err.Error StatusInternalServerError))
    | none =>
      let user : User :=
        { ID := 0, Username := r.FormValue "username", Name := r.FormValue "name",
          Password := "" }
      match user.Validate with
      | some err =>
        match r.session.AddFlash err.Error with
        | none => .panic assertionPanic
        | some session =>
          let session := session.set "currentUser" (.user user)
          σ.reply ((session.Save L σ.w).call (.Redirect "/register" StatusFound))
      | none =>
        let password := r.FormValue "password"
        let confirmPassword := r.FormValue "confirmPassword"
        if password ≠ confirmPassword then
          match r.session.AddFlash "passwords don't match" with
          | none => .panic assertionPanic
          | some session =>
            let session := session.set "currentUser" (.user user)
            σ.reply ((session.Save L σ.w).call (.Redirect "/register" StatusFound))
        else
          match σ.db.SaveUser L user password with
          | (_, _, some err) =>
            match r.session.AddFlash ("database error: " ++ err.Error) with
            | none => .panic assertionPanic
            | some session =>
              let session := session.set "currentUser" (.user user)
              σ.reply ((session.Save L σ.w).call (.Redirect "/register" StatusFound))
          | (db, _, none) =>
            .done { w := σ.w.call (.Redirect "/" StatusFound), db := db, now := σ.now }

/-- Go `Server.userAuthenticateHandler`. -/
def userAuthenticateHandler (L : WebLib) : HandlerFunc := fun r σ =>
  match L.parseFormErr r with
  | some err => σ.reply (σ.w.call (.Error err.Error StatusInternalServerError))
  | none =>
    match r.sessionErr with
    | some err => σ.reply (σ.w.call (.Error err.Error StatusInternalServerError))
    | none =>
      let username := r.FormValue "username"
      let password := r.FormValue "password"
      match σ.db.GetUserByUsername username with
      | (_, some _) =>
        match r.session.AddFlash "login failed" with
        | none => .panic assertionPanic
        | some session => σ.reply ((session.Save L σ.w).call (.Redirect "/login" StatusFound))
      | (user, none) =>
        match L.CompareHashAndPassword user.Password password with
        | some _ =>
          match r.session.AddFlash "login failed" with
          | none => .panic assertionPanic
          | some session =>
            σ.reply ((session.Save L σ.w).call (.Redirect "/login" StatusFound))
        | none =>
          let session := r.session.set "activeUser" (.string user.Username)
          let session := session.set "activeUserID" (.int64 user.ID)
          σ.reply ((session.Save L σ.w).call (.Redirect "/" StatusFound))

/-- Go `Server.userLogoutHandler`. -/
def userLogoutHandler (L : WebLib) : HandlerFunc := fun r σ =>
  match r.sessionErr with
  | some err => σ.reply (σ.w.call (.Error err.Error StatusInternalServerError))
  | none =>
    let session := r.session.delete "activeUser"
    let session := session.delete "activeUserID"
    σ.reply ((session.Save L σ.w).call (.Redirect "/" StatusFound))

/-- The sessions that a response hands to the client as a cookie. -/
def savedSessions (calls : List WriterCall) : List Session :=
  calls.filterMap fun c =>
    match c with
    | .SaveSession s => some s
    | _ => none

/-- The sessions that a client can hold: the empty session of a first visit, and every
session that a web handler (or `PrepareData`, which the rendering handlers run) sets as a
cookie, on a fresh writer, for a request that carries a session the client holds, while
the user rows of the store are among `U`. -/
inductive Reachable (L : WebLib) (U : User → Prop) : Session → Prop where
  | empty : Reachable L U { Values := [] }
  | handler (h : HandlerFunc) (r : Request) (σ σ' : World) (s : Session) :
      h = userAuthenticateHandler L ∨ h = userLogoutHandler L ∨ h = userSaveHandler L ∨
        h = postSaveHandler L ∨ (∃ files, h = postCreateHandler L files) ∨
        (∃ files, h = userCreateHandler L files) →
      Reachable L U r.session → σ.w.calls = [] → (∀ u ∈ σ.db.users, U u) →
      h r σ = .done σ' → s ∈ savedSessions σ'.w.calls → Reachable L U s
  | prepare (r : Request) (w w' : ResponseWriter) (data data' : List (String × SessionValue))
      (s' s : Session) :
      Reachable L U r.session → w.calls = [] →
      PrepareData L r r.session w data = some (w', data', s') →
      s ∈ savedSessions w'.calls → Reachable L U s

/-- The identity of a session: "activeUser" and "activeUserID" are both absent, or they
hold the username, as a string, and the id, as an `int64`, of one user row among `U`;
and "_flash", when present, holds a list of messages. -/
def SessionInv (U : User → Prop) (s : Session) : Prop :=
  ((s.Values.lookup "activeUser" = none ∧ s.Values.lookup "activeUserID" = none) ∨
    ∃ u, U u ∧ s.Values.lookup "activeUser" = some (.string u.Username) ∧
      s.Values.lookup "activeUserID" = some (.int64 u.ID)) ∧
  (s.Values.lookup "_flash" = none ∨ ∃ fs, s.Values.lookup "_flash" = some (.flashes fs))

/-! ## The reference instance for the store and the web handlers -/

/-- A post written as slug, title and body, parted by bars. -/
def Ref.decodePost (body : String) : Except GoError Post :=
  match Split body '|' with
  | [slug, title, text] =>
    .ok { Slug := slug, UserID := 0, Author := "", Title := title, Body := text,
          Created := Time.zero, Modified := Time.zero }
  | _ => .error (.errorString "invalid character")

/-- The reference instance with the functions of the store and the web handlers: the
codecs of `refLib`, a stand-in for bcrypt that leads the password by a fixed salt, and
forms, cookies and templates that do not fail. -/
def refWebLib : WebLib where
  toLib :=
    { refLib with
      CompareHashAndPassword := fun hash password =>
        if hash = "$2a$10$" ++ password then none
        else some (.errorString
          "crypto/bcrypt: hashedPassword is not the hash of the given password") }
  GenerateFromPassword := fun password => ("$2a$10$" ++ password, none)
  decodePost := Ref.decodePost
  parseFormErr := fun _ => none
  sessionSaveErr := fun _ => none
  parseFilesErr := fun _ => none
  executeTemplateErr := fun _ _ => none

namespace Example

/-- A request with the given form values and session. -/
def form (fields : List (String × String)) (session : Session) : Request :=
  { Header := fun _ => "", Body := "", FormValue := fun k => (fields.lookup k).getD "",
    Vars := fun _ => "", session := session, sessionErr := none }

/-- A request for the post of the given slug. -/
def slugRequest (slug : String) : Request :=
  { Header := fun _ => "", Body := "", FormValue := fun _ => "",
    Vars := fun k => if k = "slug" then slug else "", session := { Values := [] },
    sessionErr := none }

/-- The clock four seconds after `clock`. -/
def later : Time := { sec := unixToInternal + 9, nsec := 0 }

/-- The registration of alice with the password "pw1". -/
def register : Request :=
  form [("username", "alice"), ("name", "Alice"), ("password", "pw1"),
    ("confirmPassword", "pw1")] { Values := [] }

/-- The registration of alice again, with the password fields left empty. -/
def registerAgain : Request :=
  form [("username", "alice"), ("name", "Alice")] { Values := [] }

/-- The store after the registration of alice: her row has the id 1. -/
def registeredDB : DB :=
  (emptyDB.SaveUser refWebLib
    { ID := 0, Username := "alice", Name := "Alice", Password := "" } "pw1").1

/-- The store after alice saved the draft at the time `clock`. -/
def postedDB : DB := (registeredDB.SavePost clock draft).1

/-- The store after the registration of bob and then of alice: her row is the second and
has the id 2. -/
def crowdDB : DB :=
  ((emptyDB.SaveUser refWebLib
      { ID := 0, Username := "bob", Name := "Bob", Password := "" } "pw0").1.SaveUser refWebLib
    { ID := 0, Username := "alice", Name := "Alice", Password := "" } "pw1").1

/-- The session of alice after her login. -/
def aliceSession : Session :=
  { Values := [("activeUserID", .int64 1), ("activeUser", .string "alice")] }

/-- A post whose body is 34 euro signs, of three bytes each. -/
def euros : Post := { draft with Body := String.mk (List.replicate 34 '€') }

/-- A post whose body is a tag with a newline in it and a letter. -/
def brokenTag : Post := { draft with Body := "<a\nb>x" }

end Example

namespace Example

/-- A request of alice to the post routes: her token, which expires at second 100, and
the given body. -/
def tokenRequest (body : String) : Request :=
  request ("Bearer" ++ String.singleton ' ' ++
    (CreateToken refWebLib.toLib [("activeUser", .string "alice")] 100).1) body { Values := [] }

end Example

/-! ## Properties of pkg/models and pkg/database -/

/-- C9. `Post.Validate` returns nil exactly when Slug and Title are non-empty and UserID is
positive; otherwise it returns the error of the first violated rule, in the order Slug
("Slug", "invalid value"), Title ("Title", "empty"), UserID ("UserID", "invalid value");
and the message of a validation error is its field, a colon, a space and its reason. -/
theorem Post.Validate_spec (p : Post) (e : ValidationError) :
    (p.Validate = none ↔ p.Slug ≠ "" ∧ p.Title ≠ "" ∧ p.UserID > 0) ∧
    (p.Slug = "" → p.Validate = some { Field := "Slug", Err := "invalid value" }) ∧
    (p.Slug ≠ "" → p.Title = "" → p.Validate = some { Field := "Title", Err := "empty" }) ∧
    (p.Slug ≠ "" → p.Title ≠ "" → p.UserID ≤ 0 →
      p.Validate = some { Field := "UserID", Err := "invalid value" }) ∧
    e.Error = e.Field ++ ": " ++ e.Err := by
  refine ⟨?_, ?_, ?_, ?_, rfl⟩
  · unfold Post.Validate
    by_cases h1 : p.Slug = "" <;> by_cases h2 : p.Title = "" <;>
      by_cases h3 : p.UserID ≤ 0 <;> simp [h1, h2, h3]
    all_goals omega
  · intro h1; simp [Post.Validate, h1]
  · intro h1 h2; simp [Post.Validate, h1, h2]
  · intro h1 h2 h3; simp [Post.Validate, h1, h2, h3]

/-! ## Splitting -/

theorem splitChars_ne_nil (sep : Char) (cs : List Char) : splitChars sep cs ≠ [] := by
  cases cs with
  | nil => simp [splitChars]
  | cons c cs =>
    unfold splitChars
    split
    · simp
    · split <;> simp

theorem splitChars_of_not_mem (sep : Char) (cs : List Char) (h : sep ∉ cs) :
    splitChars sep cs = [cs] := by
  induction cs with
  | nil => rfl
  | cons c cs ih =>
    have hc : c ≠ sep := fun e => h (by simp [e])
    have hcs : sep ∉ cs := fun e => h (by simp [e])
    simp [splitChars, hc, ih hcs]

theorem splitChars_append (sep : Char) (s rest : List Char) (h : sep ∉ s) :
    splitChars sep (s ++ sep :: rest) = s :: splitChars sep rest := by
  induction s with
  | nil => simp [splitChars]
  | cons c cs ih =>
    have hc : c ≠ sep := fun e => h (by simp [e])
    have hcs : sep ∉ cs := fun e => h (by simp [e])
    simp [splitChars, hc, ih hcs]

theorem Split_two (a b : String) (sep : Char) (ha : sep ∉ a.data) (hb : sep ∉ b.data) :
    Split (a ++ String.singleton sep ++ b) sep = [a, b] := by
  have : (a ++ String.singleton sep ++ b).data = a.data ++ sep :: b.data := by
    simp [String.data_append, String.singleton]
  simp [Split, this, splitChars_append _ _ _ ha, splitChars_of_not_mem _ _ hb]

theorem or_eq_zero (x y : Nat) : x ||| y = 0 ↔ x = 0 ∧ y = 0 := by
  constructor
  · intro h
    have key : ∀ i, (x.testBit i || y.testBit i) = false := by
      intro i
      rw [← Nat.testBit_or, h, Nat.zero_testBit]
    constructor
    · apply Nat.eq_of_testBit_eq
      intro i
      have := key i
      simp only [Bool.or_eq_false_iff] at this
      simp [this.1]
    · apply Nat.eq_of_testBit_eq
      intro i
      have := key i
      simp only [Bool.or_eq_false_iff] at this
      simp [this.2]
  · rintro ⟨rfl, rfl⟩
    simp

/-! ## The reference instance meets the assumptions -/

namespace Ref

theorem digitChar_isDigit (d : Nat) (h : d < 10) : (Char.ofNat (48 + d)).isDigit = true := by
  interval_cases d <;> rfl

theorem digitChar_toNat (d : Nat) (h : d < 10) : (Char.ofNat (48 + d)).toNat - 48 = d := by
  interval_cases d <;> rfl

theorem digits_isDigit (n : Nat) (c : Char)
    (h : c ∈ (Nat.digits 10 n).map (fun d => Char.ofNat (48 + d))) : c.isDigit = true := by
  obtain ⟨d, hd, rfl⟩ := List.mem_map.1 h
  exact digitChar_isDigit d (Nat.digits_lt_base (by norm_num) hd)

theorem dash_not_mem_digits (n : Nat) :
    '-' ∉ (Nat.digits 10 n).map (fun d => Char.ofNat (48 + d)) := by
  intro h
  have := digits_isDigit n _ h
  exact absurd this (by decide)

theorem decNat_digits (n : Nat) :
    decNat ((Nat.digits 10 n).map (fun d => Char.ofNat (48 + d))) = n := by
  have : ((Nat.digits 10 n).map (fun d => Char.ofNat (48 + d))).map (fun c => c.toNat - 48)
      = Nat.digits 10 n := by
    rw [List.map_map]
    conv_rhs => rw [← List.map_id (Nat.digits 10 n)]
    apply List.map_congr_left
    intro d hd
    exact digitChar_toNat d (Nat.digits_lt_base (by norm_num) hd)
  rw [decNat, this, Nat.ofDigits_digits]

theorem splitChars_encode (b : List Nat) :
    splitChars '-' (b.flatMap encNat) =
      b.map (fun n => (Nat.digits 10 n).map (fun d => Char.ofNat (48 + d))) ++ [[]] := by
  induction b with
  | nil => rfl
  | cons n b ih =>
    simp only [List.flatMap_cons, encNat, List.append_assoc, List.singleton_append,
      List.map_cons, List.cons_append]
    rw [splitChars_append _ _ _ (dash_not_mem_digits n)]
    rw [← ih]
    rfl

theorem encode_chars (b : List Nat) (c : Char) (h : c ∈ b.flatMap encNat) :
    c.isDigit = true ∨ c = '-' := by
  obtain ⟨n, _, hc⟩ := List.mem_flatMap.1 h
  simp only [encNat, List.mem_append, List.mem_singleton] at hc
  rcases hc with hc | hc
  · exact Or.inl (digits_isDigit n c hc)
  · exact Or.inr hc

theorem DecodeSegment_EncodeSegment (b : List Nat) :
    DecodeSegment (EncodeSegment b) = .ok b := by
  have hall : (b.flatMap encNat).all (fun c => c.isDigit || c == '-') = true := by
    rw [List.all_eq_true]
    intro c hc
    rcases encode_chars b c hc with h | h <;> simp [h]
  have hmap : (b.map (fun n => (Nat.digits 10 n).map (fun d => Char.ofNat (48 + d)))).map decNat
      = b := by
    rw [List.map_map]
    conv_rhs => rw [← List.map_id b]
    apply List.map_congr_left
    intro n _
    exact decNat_digits n
  simp [DecodeSegment, EncodeSegment, hall, splitChars_encode, hmap]

theorem EncodeSegment_chars (b : List Nat) :
    '.' ∉ (EncodeSegment b).data ∧ ' ' ∉ (EncodeSegment b).data := by
  constructor <;> intro h <;> rcases encode_chars b _ h with h | h <;> revert h <;> decide

end Ref

namespace Ref

theorem pString_ser (s : String) (rest : List Nat) :
    pString (serString s ++ rest) = some (s, rest) := by
  have h1 : (List.map Char.toNat s.data ++ rest).take s.data.length
      = List.map Char.toNat s.data := by
    rw [List.take_append_of_le_length (by simp)]
    simp
  have h2 : (List.map Char.toNat s.data ++ rest).drop s.data.length = rest := by
    rw [List.drop_append_of_le_length (by simp)]
    simp
  have h3 : List.map Char.ofNat (List.map Char.toNat s.data) = s.data := by
    rw [List.map_map]
    conv_rhs => rw [← List.map_id s.data]
    apply List.map_congr_left
    intro c _
    exact Char.ofNat_toNat c
  simp only [serString, List.cons_append, pString, h1, h2, h3]
  simp

theorem pInt_ser (z : Int) (rest : List Nat) : pInt (serInt z ++ rest) = some (z, rest) := by
  simp only [serInt, List.cons_append, List.nil_append, pInt]
  congr 2
  omega

theorem pValue_ser (v : GoValue) (rest : List Nat) :
    pValue (serValue v ++ rest) = some (readBack v, rest) := by
  cases v with
  | nil => rfl
  | bool b => cases b <;> rfl
  | string s => simp [serValue, pValue, pString_ser, readBack]
  | int n => simp [serValue, pValue, pInt_ser, readBack]
  | float64 n => simp [serValue, pValue, pInt_ser, readBack]
  | other id => rfl

theorem pEntries_ser (m : GoMap) (rest : List Nat) :
    pEntries m.length (m.flatMap (fun kv => serString kv.1 ++ serValue kv.2) ++ rest)
      = some (m.map (fun kv => (kv.1, readBack kv.2)), rest) := by
  induction m with
  | nil => rfl
  | cons kv m ih =>
    simp only [List.length_cons, List.flatMap_cons, List.append_assoc, pEntries, pString_ser,
      Option.some_bind, pValue_ser, ih, List.map_cons]

theorem pMap_ser (m : GoMap) (rest : List Nat) :
    pMap (serMap m ++ rest) = some (m.map (fun kv => (kv.1, readBack kv.2)), rest) := by
  simp only [serMap, List.cons_append, pMap, pEntries_ser]

theorem pClaims_ser (c : Claims) (d : GoMap) (h : c.Data = some d) :
    pClaims (serClaims c) = some ({ c with Data := some (d.map (fun kv => (kv.1, readBack kv.2))) }, []) := by
  have := pMap_ser d []
  rw [List.append_nil] at this
  simp only [serClaims, pClaims, h, pString_ser, pInt_ser, Option.some_bind, pData, this,
    Option.map_some']

theorem lookup_map_json (m : GoMap) (k : String) :
    (m.map (fun kv => (kv.1, readBack kv.2))).lookup k = (m.lookup k).map readBack := by
  induction m with
  | nil => rfl
  | cons kv m ih =>
    obtain ⟨k', v⟩ := kv
    simp only [List.map_cons, List.lookup_cons]
    cases k == k' <;> simp [ih]

theorem mem_of_lookup (m : GoMap) (k : String) (v : GoValue) (h : m.lookup k = some v) :
    (k, v) ∈ m := by
  induction m with
  | nil => cases h
  | cons kv m ih =>
    obtain ⟨k', v'⟩ := kv
    rw [List.lookup_cons] at h
    by_cases hk : k = k'
    · subst hk
      simp only [beq_self_eq_true, Option.some.injEq] at h
      subst h
      exact List.mem_cons_self _ _
    · have : (k == k') = false := by simp [hk]
      rw [this] at h
      exact List.mem_cons_of_mem _ (ih h)

theorem marshals_iff (m : GoMap) :
    marshals m = true ↔ ∀ k v, m.lookup k = some v → v ≠ .other 0 := by
  unfold marshals
  rw [List.all_eq_true]
  constructor
  · intro h k v hk hv
    have := h (k, v) (mem_of_lookup m k v hk)
    rw [hk, hv] at this
    simp at this
  · intro h kv _
    rw [decide_eq_true_eq]
    intro hk
    exact h kv.1 _ hk rfl

theorem json_eq_none (v : GoValue) : refLib.json v = none ↔ v = .other 0 := by
  cases v with
  | other id =>
    show jsonOther id = none ↔ _
    unfold jsonOther
    by_cases h0 : id = 0
    · simp [h0]
    · by_cases h1 : id % 2 = 1 <;> simp [h0, h1]
  | nil => simp [Lib.json]
  | bool b => simp [Lib.json]
  | string s => simp [Lib.json]
  | int n => simp [Lib.json]
  | float64 n => simp [Lib.json]

theorem json_eq_readBack (v : GoValue) (h : refLib.json v ≠ none) : refLib.json v = some (readBack v) := by
  cases v with
  | other id =>
    have h0 : id ≠ 0 := fun e => h ((json_eq_none _).2 (by rw [e]))
    show jsonOther id = _
    unfold jsonOther readBack
    by_cases h1 : id % 2 = 1 <;> simp [h0, h1]
  | nil => rfl
  | bool b => rfl
  | string s => rfl
  | int n => rfl
  | float64 n => rfl

theorem marshals_of_json (m : GoMap) (h : ∀ k v, m.lookup k = some v → refLib.json v ≠ none) :
    marshals m = true :=
  (marshals_iff m).2 fun k v hk hv => h k v hk ((json_eq_none v).2 hv)

theorem lookup_readBack_json (m : GoMap) (h : ∀ k v, m.lookup k = some v → refLib.json v ≠ none)
    (k : String) : (m.lookup k).map readBack = (m.lookup k).bind refLib.json := by
  cases hk : m.lookup k with
  | none => rfl
  | some v => simp [json_eq_readBack v (h k v hk)]

end Ref

theorem refLib_lawful : refLib.Lawful where
  EncodeSegment_chars := Ref.EncodeSegment_chars
  DecodeSegment_EncodeSegment := Ref.DecodeSegment_EncodeSegment
  unmarshalHeader_marshalHeader := fun h hh =>
    ⟨Ref.serMap h, h.map (fun kv => (kv.1, Ref.readBack kv.2)), by
      simp [refLib, Ref.marshalHeader, Ref.marshals_of_json h hh], by
      have := Ref.pMap_ser h []
      rw [List.append_nil] at this
      simp [refLib, Ref.unmarshalHeader, this], fun k => by
      rw [Ref.lookup_map_json, Ref.lookup_readBack_json h hh]⟩
  marshalClaims_error := fun c d k v hd hk hv => by
    have hm : Ref.marshals d = false := by
      cases hb : Ref.marshals d with
      | false => rfl
      | true => exact absurd ((Ref.json_eq_none v).1 hv) ((Ref.marshals_iff d).1 hb k v hk)
    exact ⟨"json: unsupported value", by simp [refLib, Ref.marshalClaims, hd, hm]⟩
  unmarshalClaims_marshalClaims := fun c d hd hh =>
    ⟨Ref.serClaims c, d.map (fun kv => (kv.1, Ref.readBack kv.2)), by
      simp [refLib, Ref.marshalClaims, hd, Ref.marshals_of_json d hh], by
      simp [refLib, Ref.unmarshalClaims, Ref.pClaims_ser c d hd], fun k => by
      rw [Ref.lookup_map_json, Ref.lookup_readBack_json d hh]⟩

/-! ## The token service -/

theorem Split_three (a b c : String) (sep : Char) (ha : sep ∉ a.data) (hb : sep ∉ b.data)
    (hc : sep ∉ c.data) :
    Split (a ++ String.singleton sep ++ b ++ String.singleton sep ++ c) sep = [a, b, c] := by
  have : (a ++ String.singleton sep ++ b ++ String.singleton sep ++ c).data
      = a.data ++ sep :: (b.data ++ sep :: c.data) := by
    simp [String.data_append, String.singleton]
  simp [Split, this, splitChars_append _ _ _ ha, splitChars_append _ _ _ hb,
    splitChars_of_not_mem _ _ hc]

theorem GetSigningMethod_Alg (m : SigningMethod) : GetSigningMethod m.Alg = some m := by
  cases m <;> rfl

theorem lookup_filter_ne (m : GoMap) (k k' : String) (h : k' ≠ k) :
    (m.filter (fun e => e.1 ≠ k)).lookup k' = m.lookup k' := by
  induction m with
  | nil => rfl
  | cons e m ih =>
    obtain ⟨k1, v1⟩ := e
    by_cases h1 : k1 = k
    · subst h1
      have : (k' == k1) = false := by simp [h]
      rw [List.lookup_cons, this]
      simpa [List.filter_cons] using ih
    · have hf : List.filter (fun e => decide (e.1 ≠ k)) ((k1, v1) :: m)
          = (k1, v1) :: List.filter (fun e => decide (e.1 ≠ k)) m := by
        simp [List.filter_cons, h1]
      rw [hf, List.lookup_cons, List.lookup_cons, ih]

theorem lookup_set (m : GoMap) (k k' : String) (v : GoValue) :
    (GoMap.set m k v).lookup k' = if k' = k then some v else m.lookup k' := by
  unfold GoMap.set
  rw [List.lookup_cons]
  by_cases h : k' = k
  · simp [h]
  · have hb : (k' == k) = false := by simp [h]
    simp only [hb, h, if_false]
    exact lookup_filter_ne m k k' h

theorem lookup_copy (data : GoMap) (k : String) :
    (data.foldr (fun kv m => GoMap.set m kv.1 kv.2) []).lookup k = data.lookup k := by
  induction data with
  | nil => rfl
  | cons kv data ih =>
    obtain ⟨k1, v1⟩ := kv
    simp only [List.foldr_cons, lookup_set, ih, List.lookup_cons]
    by_cases h : k = k1
    · simp [h]
    · have : (k == k1) = false := by simp [h]
      simp [h, this]

/-- The standard claims pass the check exactly when none of the three time tests fails. -/
theorem Valid_eq_zero (L : Lib) (c : StandardClaims) (now : Int) :
    (c.Valid L now).2 = 0 ↔
      verifyExp c.ExpiresAt now false = true ∧ verifyIat c.IssuedAt now false = true ∧
        verifyNbf c.NotBefore now false = true := by
  unfold StandardClaims.Valid
  cases h1 : verifyExp c.ExpiresAt now false <;> cases h2 : verifyIat c.IssuedAt now false <;>
    cases h3 : verifyNbf c.NotBefore now false <;>
    simp [or_eq_zero, ValidationErrorExpired, ValidationErrorIssuedAt,
      ValidationErrorNotValidYet]

theorem header_marshals (L : Lib) (m : SigningMethod) (c : Claims) (k : String) (v : GoValue)
    (h : (NewWithClaims m c).Header.lookup k = some v) : L.json v ≠ none := by
  have hv : v = .string "JWT" ∨ v = .string m.Alg := by
    simp only [NewWithClaims, List.lookup_cons, List.lookup_nil] at h
    cases h1 : k == "typ" <;> cases h2 : k == "alg" <;> simp_all
  rcases hv with rfl | rfl <;> simp [Lib.json]

/-- The shape of a token signed by an HMAC method, when header and claims marshal: three
segments without a dot, which decode to the marshalled header, the marshalled claims and
the HMAC of the first two. -/
theorem signed_shape (L : Lib) (hL : L.Lawful) (m : SigningMethod) (hm : m.isHMAC = true)
    (c : Claims) (key : String) (b1 b2 : List Nat)
    (h1 : L.marshalHeader (NewWithClaims m c).Header = .ok b1)
    (h2 : L.marshalClaims c = .ok b2) :
    ∃ s1 s2 sig : String,
      ((NewWithClaims m c).SignedString L key) =
        (s1 ++ String.singleton '.' ++ s2 ++ String.singleton '.' ++ sig, none) ∧
      Split (s1 ++ String.singleton '.' ++ s2 ++ String.singleton '.' ++ sig) '.'
        = [s1, s2, sig] ∧
      L.DecodeSegment s1 = .ok b1 ∧
      L.DecodeSegment s2 = .ok b2 ∧
      L.DecodeSegment sig = .ok (L.hmacSum m key (s1 ++ String.singleton '.' ++ s2)) := by
  refine ⟨L.EncodeSegment b1, L.EncodeSegment b2, L.EncodeSegment (L.hmacSum m key
      (L.EncodeSegment b1 ++ String.singleton '.' ++ L.EncodeSegment b2)), ?_, ?_, ?_, ?_, ?_⟩
  · have hc : (NewWithClaims m c).Claims = c := rfl
    have hsstr : (NewWithClaims m c).SigningString L
        = (L.EncodeSegment b1 ++ String.singleton '.' ++ L.EncodeSegment b2, none) := by
      simp only [Token.SigningString, h1, hc, h2]
      rfl
    unfold Token.SignedString
    rw [hsstr]
    show (match SigningMethod.Sign L m _ key with
      | (_, some err) => ("", some err)
      | (sig, none) => (joinDot [_, sig], none)) = _
    simp only [SigningMethod.Sign, hm, if_true]
    rfl
  · exact Split_three _ _ _ _ (hL.EncodeSegment_chars _).1 (hL.EncodeSegment_chars _).1
      (hL.EncodeSegment_chars _).1
  · exact hL.DecodeSegment_EncodeSegment _
  · exact hL.DecodeSegment_EncodeSegment _
  · exact hL.DecodeSegment_EncodeSegment _

/-- Signing fails with the empty string when the encoder fails on a value of the claims
map. -/
theorem SignedString_error (L : Lib) (hL : L.Lawful) (m : SigningMethod) (c : Claims)
    (d : GoMap) (hd : c.Data = some d) (k : String) (v : GoValue) (hk : d.lookup k = some v)
    (hv : L.json v = none) (key : String) :
    ∃ err, (NewWithClaims m c).SignedString L key = ("", some err) := by
  obtain ⟨e, he⟩ := hL.marshalClaims_error c d k v hd hk hv
  have hc : (NewWithClaims m c).Claims = c := rfl
  unfold Token.SignedString Token.SigningString
  rw [hc, he]
  cases L.marshalHeader (NewWithClaims m c).Header with
  | error e1 => exact ⟨.errorString e1, rfl⟩
  | ok b1 => exact ⟨.errorString e, rfl⟩

/-- The string that signing returns is empty or made of three segments. -/
theorem SignedString_segments (L : Lib) (m : SigningMethod) (c : Claims) (key : String) :
    ((NewWithClaims m c).SignedString L key).1 = "" ∨
    ∃ b1 b2 b3, ((NewWithClaims m c).SignedString L key).1
      = L.EncodeSegment b1 ++ "." ++ L.EncodeSegment b2 ++ "." ++ L.EncodeSegment b3 := by
  have hc : (NewWithClaims m c).Claims = c := rfl
  unfold Token.SignedString Token.SigningString
  rw [hc]
  cases L.marshalHeader (NewWithClaims m c).Header with
  | error e1 => exact Or.inl rfl
  | ok b1 =>
    cases L.marshalClaims c with
    | error e2 => exact Or.inl rfl
    | ok b2 =>
      dsimp only
      unfold SigningMethod.Sign
      have hM : (NewWithClaims m c).Method = m := rfl
      rw [hM]
      cases hm : m.isHMAC with
      | false => exact Or.inl rfl
      | true =>
        exact Or.inr ⟨b1, b2, L.hmacSum m key
          (joinDot [L.EncodeSegment b1, L.EncodeSegment b2]), rfl⟩

/-- The empty string is no token. -/
theorem ParseToken_empty (L : Lib) (now : Int) :
    ParseToken L now "" = (none, some (.jwtValidation none ValidationErrorMalformed
      "token contains an invalid number of segments")) := by
  have h : ParseUnverified L "" = .error (.jwtValidation none ValidationErrorMalformed
      "token contains an invalid number of segments") := rfl
  simp only [ParseToken, ParseWithClaims, h]

/-- A token signed by an HMAC method under the key of the server, with a claims map on
which the encoder does not fail: parsing it gives back the JSON image of the data when
the standard claims pass the time tests, and the validation error of these tests
otherwise. -/
theorem ParseToken_signed (L : Lib) (hL : L.Lawful) (m : SigningMethod) (hm : m.isHMAC = true)
    (c : Claims) (d : GoMap) (hd : c.Data = some d)
    (hj : ∀ k v, d.lookup k = some v → L.json v ≠ none) (now : Int) :
    ((NewWithClaims m c).SignedString L TokenEncodeString).2 = none ∧
    ∃ d' : GoMap, (∀ k, d'.lookup k = (d.lookup k).bind L.json) ∧
      ParseToken L now ((NewWithClaims m c).SignedString L TokenEncodeString).1 =
        if (c.toStandardClaims.Valid L now).2 = 0 then (some d', none)
        else (none, some (.jwtValidation (c.toStandardClaims.Valid L now).1
          (c.toStandardClaims.Valid L now).2 "")) := by
  obtain ⟨b1, h', hb1, hh, hhl⟩ :=
    hL.unmarshalHeader_marshalHeader (NewWithClaims m c).Header (header_marshals L m c)
  obtain ⟨b2, d', hb2, hc, hdl⟩ := hL.unmarshalClaims_marshalClaims c d hd hj
  obtain ⟨s1, s2, sig, htok, hsplit, hd1, hd2, hd3⟩ :=
    signed_shape L hL m hm c TokenEncodeString b1 b2 hb1 hb2
  refine ⟨by rw [htok], d', hdl, ?_⟩
  have halg : h'.lookup "alg" = some (.string m.Alg) := by
    rw [hhl]
    simp [NewWithClaims, List.lookup_cons, Lib.json]
  have hjoin : joinDot [s1, s2] = s1 ++ String.singleton '.' ++ s2 := rfl
  rw [htok]
  have hPU : ParseUnverified L (s1 ++ String.singleton '.' ++ s2 ++ String.singleton '.' ++ sig)
      = .ok ({ Raw := s1 ++ String.singleton '.' ++ s2 ++ String.singleton '.' ++ sig,
               Method := m, Header := h', Claims := { c with Data := some d' },
               Signature := "", Valid := false }, [s1, s2, sig]) := by
    simp [ParseUnverified, hsplit, hd1, hh, hd2, hc, halg, GetSigningMethod_Alg]
  simp only [ParseToken, ParseWithClaims, hPU, ParseToken.keyFunc, hm, SigningMethod.Verify,
    List.getD_cons_succ, List.getD_cons_zero, List.take, hjoin, hd3]
  by_cases hz : (c.toStandardClaims.Valid L now).2 = 0 <;> simp [hz]

/-- The header of a token signed by an HMAC method names that method. -/
theorem headerAlg_signed (L : Lib) (hL : L.Lawful) (m : SigningMethod) (hm : m.isHMAC = true)
    (c : Claims) (d : GoMap) (hd : c.Data = some d)
    (hj : ∀ k v, d.lookup k = some v → L.json v ≠ none) (key : String) :
    headerAlg L ((NewWithClaims m c).SignedString L key).1 = some m.Alg := by
  obtain ⟨b1, h', hb1, hh, hhl⟩ :=
    hL.unmarshalHeader_marshalHeader (NewWithClaims m c).Header (header_marshals L m c)
  obtain ⟨b2, d', hb2, -⟩ := hL.unmarshalClaims_marshalClaims c d hd hj
  obtain ⟨s1, s2, sig, htok, hsplit, hd1, _, _⟩ := signed_shape L hL m hm c key b1 b2 hb1 hb2
  have halg : h'.lookup "alg" = some (.string m.Alg) := by
    rw [hhl]
    simp [NewWithClaims, List.lookup_cons, Lib.json]
  simp [headerAlg, htok, hsplit, hd1, hh, halg]

/-- The claims that `CreateToken` signs. -/
theorem CreateToken_eq (L : Lib) (data : GoMap) (exp : Int) :
    CreateToken L data exp = (NewWithClaims .HS256
      { Data := some (data.foldr (fun kv m => GoMap.set m kv.1 kv.2) []),
        Audience := "", ExpiresAt := exp, Id := "", IssuedAt := 0, Issuer := Issuer,
        NotBefore := 0, Subject := "" }).SignedString L TokenEncodeString :=
  rfl

/-- The function `CreateToken` fails with the empty string when the encoder fails on a
value of `data`. -/
theorem CreateToken_error (L : Lib) (hL : L.Lawful) (data : GoMap) (exp : Int) (k : String)
    (v : GoValue) (hk : data.lookup k = some v) (hv : L.json v = none) :
    ∃ err, CreateToken L data exp = ("", some err) := by
  rw [CreateToken_eq]
  exact SignedString_error L hL _ _ _ rfl k v (by rw [lookup_copy]; exact hk) hv _

/-- When the encoder fails on no value of `data`, `CreateToken` does not fail, and parsing
its token at the Unix time `now` gives the JSON image of `data` when the expiry is zero
or not yet passed, and an error and the nil map otherwise. -/
theorem ParseToken_CreateToken (L : Lib) (hL : L.Lawful) (data : GoMap) (exp now : Int)
    (hj : ∀ k v, data.lookup k = some v → L.json v ≠ none) :
    (CreateToken L data exp).2 = none ∧
    ∃ d' : GoMap, (∀ k, d'.lookup k = (data.lookup k).bind L.json) ∧
      ParseToken L now (CreateToken L data exp).1 =
        if exp = 0 ∨ now ≤ exp then (some d', none)
        else (none, some (.jwtValidation
          (some ("token is expired by " ++ L.durationString (now - exp)))
          ValidationErrorExpired "")) := by
  let c : Claims :=
    { Data := some (data.foldr (fun kv m => GoMap.set m kv.1 kv.2) []),
      Audience := "", ExpiresAt := exp, Id := "", IssuedAt := 0, Issuer := Issuer,
      NotBefore := 0, Subject := "" }
  have hCT : CreateToken L data exp = (NewWithClaims .HS256 c).SignedString L TokenEncodeString :=
    rfl
  obtain ⟨hnone, d', hd', hP⟩ := ParseToken_signed L hL .HS256 rfl c _ rfl
    (fun k v hk => hj k v (by rw [← lookup_copy]; exact hk)) now
  refine ⟨by rw [hCT, hnone], d', fun k => by rw [hd', lookup_copy], ?_⟩
  rw [hCT, hP]
  by_cases h : exp = 0 ∨ now ≤ exp
  · have : (c.toStandardClaims.Valid L now).2 = 0 := by
      rw [Valid_eq_zero]
      rcases h with h | h <;> simp [c, verifyExp, verifyIat, verifyNbf, h]
    simp [this, h]
  · have h0 : exp ≠ 0 := fun e => h (Or.inl e)
    have h1 : ¬ now ≤ exp := fun e => h (Or.inr e)
    simp [h, StandardClaims.Valid, c, verifyExp, verifyIat, verifyNbf, h0, h1,
      ValidationErrorExpired]

/-- The encoder fails on no value of a map with one entry when it does not fail on the
value of that entry. -/
theorem json_single (L : Lib) (k0 : String) (v0 : GoValue) (h0 : L.json v0 ≠ none)
    (k : String) (v : GoValue) (h : List.lookup k [(k0, v0)] = some v) : L.json v ≠ none := by
  have hv : v = v0 := by
    simp only [List.lookup_cons, List.lookup_nil] at h
    cases h1 : k == k0 <;> simp_all
  subst hv
  exact h0

theorem json_string (L : Lib) (s : String) : L.json (.string s) ≠ none := by
  simp [Lib.json]

theorem GetSigningMethod_some (a : String) (m : SigningMethod) (h : GetSigningMethod a = some m) :
    m.Alg = a := by
  have := List.find?_some h
  simpa using this

/-- The method of a token that `ParseUnverified` returns is the one its header names. -/
theorem ParseUnverified_alg (L : Lib) (t a : String) (token : Token) (parts : List String)
    (ha : headerAlg L t = some a) (h : ParseUnverified L t = .ok (token, parts)) :
    token.Method.Alg = a := by
  unfold headerAlg at ha
  unfold ParseUnverified at h
  dsimp only at h
  by_cases hlen : (Split t '.').length ≠ 3
  · rw [if_pos hlen] at h; cases h
  · rw [if_neg hlen] at h
    cases hd : L.DecodeSegment ((Split t '.').getD 0 "") with
    | error e => rw [hd] at ha; cases ha
    | ok hb =>
      rw [hd] at ha h
      dsimp only at ha h
      cases hu : L.unmarshalHeader hb with
      | error e => rw [hu] at ha; cases ha
      | ok header =>
        rw [hu] at ha h
        dsimp only at ha h
        cases hd2 : L.DecodeSegment ((Split t '.').getD 1 "") with
        | error e => rw [hd2] at h; cases h
        | ok cb =>
          rw [hd2] at h
          dsimp only at h
          cases hc : L.unmarshalClaims cb with
          | error e => rw [hc] at h; cases h
          | ok claims =>
            rw [hc] at h
            dsimp only at h
            cases hl : header.lookup "alg" with
            | none => rw [hl] at ha; cases ha
            | some v =>
              rw [hl] at ha h
              cases v with
              | string method =>
                dsimp only at ha h
                cases hg : GetSigningMethod method with
                | none => rw [hg] at h; cases h
                | some m =>
                  rw [hg] at h
                  dsimp only at h
                  simp only [Except.ok.injEq, Prod.mk.injEq] at h
                  simp only [Option.some.injEq] at ha
                  rw [← h.1, ← ha]
                  exact GetSigningMethod_some _ _ hg
              | nil => cases ha
              | bool _ => cases ha
              | int _ => cases ha
              | float64 _ => cases ha
              | other _ => cases ha

/-- A token whose header names a method outside the HMAC family does not parse. -/
theorem ParseToken_not_HMAC (L : Lib) (now : Int) (t a : String) (ha : headerAlg L t = some a)
    (h1 : a ≠ "HS256") (h2 : a ≠ "HS384") (h3 : a ≠ "HS512") :
    (ParseToken L now t).1 = none ∧ (ParseToken L now t).2 ≠ none := by
  unfold ParseToken ParseWithClaims
  cases hPU : ParseUnverified L t with
  | error e => simp
  | ok tp =>
    obtain ⟨token, parts⟩ := tp
    have halg := ParseUnverified_alg L t a token parts ha hPU
    have hm : token.Method.isHMAC = false := by
      revert halg
      cases token.Method <;> simp_all [SigningMethod.Alg, SigningMethod.isHMAC] <;>
        intro h <;> simp_all
    simp [ParseToken.keyFunc, hm]

theorem ParseToken_error_nil (L : Lib) (now : Int) (t : String)
    (h : (ParseToken L now t).2 ≠ none) : (ParseToken L now t).1 = none := by
  unfold ParseToken at h ⊢
  cases hP : ParseWithClaims L now t (ParseToken.keyFunc L) with
  | error e => simp
  | ok token =>
    simp only [hP] at h ⊢
    by_cases hv : token.Valid <;> simp [hv] at h ⊢

theorem getUserFromToken_invalid_token (L : Lib) (now : Int) (r : Request)
    (hlen : (Split (r.Header "Authorization") ' ').length = 2)
    (hlow : L.ToLower ((Split (r.Header "Authorization") ' ').getD 0 "") = "bearer")
    (hfail : (ParseToken L now ((Split (r.Header "Authorization") ' ').getD 1 "")).2 ≠ none) :
    getUserFromToken L now r = ("", some (.errorString "invalid token")) := by
  unfold getUserFromToken
  simp only [hlen, hlow, ne_eq, not_true_eq_false, or_self, if_false]
  cases hP : ParseToken L now ((Split (r.Header "Authorization") ' ').getD 1 "") with
  | mk claims err =>
    cases err with
    | none => rw [hP] at hfail; exact absurd rfl hfail
    | some e => rfl

theorem toLower_ascii (c d : Char) (h : c.toLower = d) (hd : d.toNat < 128) : c.toNat < 128 := by
  unfold Char.toLower at h
  by_cases hc : c.toNat ≥ 65 ∧ c.toNat ≤ 90
  · omega
  · rw [if_neg hc] at h
    rw [h]; exact hd

theorem ToLower_casing (L : Lib) (scheme : String)
    (h : scheme.data.map Char.toLower = "bearer".data) :
    L.ToLower scheme = "bearer" ∧ ' ' ∉ scheme.data := by
  have hmem : ∀ c ∈ scheme.data, c.toLower ∈ "bearer".data := by
    intro c hc
    rw [← h]
    exact List.mem_map_of_mem _ hc
  constructor
  · unfold Lib.ToLower
    have : scheme.data.map L.runeToLower = scheme.data.map Char.toLower := by
      apply List.map_congr_left
      intro c hc
      have hlt : c.toNat < 128 := by
        apply toLower_ascii c c.toLower rfl
        have := hmem c hc
        revert this
        generalize c.toLower = d
        intro hd
        have : d = 'b' ∨ d = 'e' ∨ d = 'a' ∨ d = 'r' ∨ d = 'e' ∨ d = 'r' := by
          simpa [String.data] using hd
        rcases this with rfl | rfl | rfl | rfl | rfl | rfl <;> decide
      simp [Lib.runeToLower, hlt]
    rw [this, h]
  · intro hsp
    have := hmem ' ' hsp
    revert this
    decide

/-! ## The claims -/

theorem Time.IsZero_iff (t : Time) : t.IsZero = true ↔ t = Time.zero := by
  cases t with
  | mk sec nsec => simp [Time.IsZero, Time.zero]

/-- C10. For a store write that succeeds at time `now`, `SavePost` returns a post whose
Modified is `now`, whose Created is `now` when the input Created is the zero time and the
input Created otherwise, and whose Slug, UserID, Author, Title and Body are the input's;
when preparing or executing the statement fails it returns the empty post and the error. -/
theorem DB.SavePost_timestamps (db : DB) (now : Time) (post : Post) :
    (db.prepareErr savePostQuery = none → db.execErr savePostQuery = none →
      (db.SavePost now post).2.2 = none ∧
      (db.SavePost now post).2.1.Modified = now ∧
      (post.Created = Time.zero → (db.SavePost now post).2.1.Created = now) ∧
      (post.Created ≠ Time.zero → (db.SavePost now post).2.1.Created = post.Created) ∧
      (db.SavePost now post).2.1.Slug = post.Slug ∧
      (db.SavePost now post).2.1.UserID = post.UserID ∧
      (db.SavePost now post).2.1.Author = post.Author ∧
      (db.SavePost now post).2.1.Title = post.Title ∧
      (db.SavePost now post).2.1.Body = post.Body) ∧
    (∀ err, db.prepareErr savePostQuery = some err ∨
        (db.prepareErr savePostQuery = none ∧ db.execErr savePostQuery = some err) →
      (db.SavePost now post).2 = (Post.zero, some err)) := by
  constructor
  · intro hp he
    by_cases hz : post.Created.IsZero = true
    · have hz' := (Time.IsZero_iff _).1 hz
      simp [DB.SavePost, hp, he, hz]
      intro h; exact absurd hz' h
    · have hz' : post.Created ≠ Time.zero := fun e => hz ((Time.IsZero_iff _).2 e)
      simp [DB.SavePost, hp, he, hz]
      intro h; exact absurd h hz'
  · rintro err (hp | ⟨hp, he⟩)
    · simp [DB.SavePost, hp]
    · simp [DB.SavePost, hp, he]

/-- C10, at a concrete input: a draft saved into the empty database. -/
theorem DB.SavePost_timestamps_witness :
    (Example.emptyDB.SavePost Example.clock Example.draft).2.2 = none ∧
    (Example.emptyDB.SavePost Example.clock Example.draft).2.1.Modified = Example.clock ∧
    (Example.emptyDB.SavePost Example.clock Example.draft).2.1.Created = Example.clock :=
  have h := (DB.SavePost_timestamps Example.emptyDB Example.clock Example.draft).1 rfl rfl
  ⟨h.1, h.2.1, h.2.2.1 rfl⟩

/-- C9, at a concrete input: a post without a title. -/
theorem Post.Validate_spec_witness :
    ({ Example.draft with Title := "" } : Post).Validate
      = some { Field := "Title", Err := "empty" } :=
  (Post.Validate_spec { Example.draft with Title := "" } { Field := "", Err := "" }).2.2.1
    (by decide) rfl

/-- C4 (amended). For a library that meets `Lib.Lawful`, every claims mapping `data` and
every expiry with now < exp: when the JSON encoder fails on some value of `data`,
`CreateToken` returns an error and the empty string; when it fails on none, `CreateToken`
does not fail and `ParseToken` of its token succeeds with a mapping that has, key by key,
the JSON image of the values of `data` (an integer comes back as a `float64`); and that
mapping has exactly the entries of `data` if and only if every value of `data` is its own
JSON image. -/
theorem ParseToken_CreateToken_roundtrip (L : Lib) (hL : L.Lawful) (data : GoMap)
    (exp now : Int) (h : now < exp) :
    ((∃ k v, data.lookup k = some v ∧ L.json v = none) →
      (CreateToken L data exp).1 = "" ∧ (CreateToken L data exp).2 ≠ none) ∧
    ((∀ k v, data.lookup k = some v → L.json v ≠ none) →
      (CreateToken L data exp).2 = none ∧
      ∃ d' : GoMap, ParseToken L now (CreateToken L data exp).1 = (some d', none) ∧
        (∀ k, d'.lookup k = (data.lookup k).bind L.json) ∧
        ((∀ k, d'.lookup k = data.lookup k) ↔
          ∀ k v, data.lookup k = some v → L.json v = some v)) := by
  constructor
  · rintro ⟨k, v, hk, hv⟩
    obtain ⟨err, he⟩ := CreateToken_error L hL data exp k v hk hv
    rw [he]
    exact ⟨rfl, by simp⟩
  · intro hj
    obtain ⟨h1, d', hd', hP⟩ := ParseToken_CreateToken L hL data exp now hj
    refine ⟨h1, d', ?_, hd', ?_⟩
    · rw [hP, if_pos (Or.inr (le_of_lt h))]
    · constructor
      · intro heq k v hk
        have := heq k
        rw [hd', hk] at this
        exact this
      · intro hown k
        rw [hd']
        cases hk : data.lookup k with
        | none => rfl
        | some v => exact hown k v hk

/-- C4 (amended), at concrete inputs, five seconds before the expiry: the claims of a
login come back as they were; a value that the codec reads back as another value (the
value 1 of the reference instance, read back as the value 2) comes back changed; and a
mapping with a value that the encoder refuses gets no token. -/
theorem ParseToken_CreateToken_roundtrip_witness :
    (∃ d' : GoMap,
      ParseToken refLib 5 (CreateToken refLib [("activeUser", .string "alice")] 10).1
        = (some d', none) ∧
      d'.lookup "activeUser" = some (.string "alice")) ∧
    (∃ d' : GoMap,
      ParseToken refLib 5 (CreateToken refLib [("tags", .other 1)] 10).1 = (some d', none) ∧
      d'.lookup "tags" = some (.other 2)) ∧
    (CreateToken refLib [("x", .other 0)] 10).1 = "" ∧
    (CreateToken refLib [("x", .other 0)] 10).2 ≠ none :=
  ⟨((ParseToken_CreateToken_roundtrip refLib refLib_lawful
      [("activeUser", .string "alice")] 10 5 (by decide)).2
      (json_single refLib _ _ (json_string refLib "alice"))).2.elim
      fun d' hd' => ⟨d', hd'.1, by rw [hd'.2.1]; rfl⟩,
   ((ParseToken_CreateToken_roundtrip refLib refLib_lawful [("tags", .other 1)] 10 5
      (by decide)).2 (json_single refLib _ _ (by decide))).2.elim
      fun d' hd' => ⟨d', hd'.1, by rw [hd'.2.1]; rfl⟩,
   (ParseToken_CreateToken_roundtrip refLib refLib_lawful [("x", .other 0)] 10 5
      (by decide)).1 ⟨"x", .other 0, rfl, rfl⟩⟩

/-- C4 as stated fails for a mapping with an integer value: parsing the token of the data
"n" ↦ 1 returns a mapping in which "n" is the `float64` 1, not the integer 1. -/
theorem ParseToken_CreateToken_int :
    ∃ d' : GoMap,
      ParseToken refLib 5 (CreateToken refLib [("n", .int 1)] 10).1 = (some d', none) ∧
      d'.lookup "n" = some (.float64 1) ∧
      d'.lookup "n" ≠ List.lookup "n" [("n", GoValue.int 1)] := by
  obtain ⟨_, d', hd', hP⟩ := ParseToken_CreateToken refLib refLib_lawful [("n", .int 1)] 10 5
    (json_single refLib _ _ (by simp [Lib.json]))
  refine ⟨d', ?_, ?_, ?_⟩
  · rw [hP]; rfl
  · rw [hd']; rfl
  · rw [hd']; decide

/-- C5 (amended). For a library that meets `Lib.Lawful`, every claims mapping and every
expiry other than 0 with now > exp, `ParseToken` of the token of `CreateToken` returns an
error and the nil map. -/
theorem ParseToken_CreateToken_expired (L : Lib) (hL : L.Lawful) (data : GoMap)
    (exp now : Int) (h0 : exp ≠ 0) (h : now > exp) :
    (ParseToken L now (CreateToken L data exp).1).1 = none ∧
    (ParseToken L now (CreateToken L data exp).1).2 ≠ none := by
  by_cases hj : ∀ k v, data.lookup k = some v → L.json v ≠ none
  · obtain ⟨_, d', _, hP⟩ := ParseToken_CreateToken L hL data exp now hj
    have hn : ¬ (exp = 0 ∨ now ≤ exp) := by
      rintro (h1 | h1)
      · exact h0 h1
      · omega
    rw [hP, if_neg hn]
    exact ⟨rfl, by simp⟩
  · push_neg at hj
    obtain ⟨k, v, hk, hv⟩ := hj
    obtain ⟨err, he⟩ := CreateToken_error L hL data exp k v hk hv
    rw [he, ParseToken_empty]
    exact ⟨rfl, by simp⟩

/-- C5 (amended), at a concrete input: a token that expired at second 3, parsed at
second 5, also with a negative expiry. -/
theorem ParseToken_CreateToken_expired_witness :
    (ParseToken refLib 5 (CreateToken refLib [("activeUser", .string "alice")] 3).1).2 ≠ none ∧
    (ParseToken refLib 5 (CreateToken refLib [("activeUser", .string "alice")] (-1)).1).2
      ≠ none :=
  ⟨(ParseToken_CreateToken_expired refLib refLib_lawful _ 3 5 (by decide) (by decide)).2,
   (ParseToken_CreateToken_expired refLib refLib_lawful _ (-1) 5 (by decide) (by decide)).2⟩

/-- C5 as stated fails at the expiry 0 and at now = exp: a token with the expiry 0 parses
without error at second 5 (the library takes 0 for "no expiry"), and a token with the
expiry 5 still parses without error at second 5. -/
theorem ParseToken_CreateToken_not_expired :
    (5 : Int) ≥ 0 ∧
    (ParseToken refLib 5 (CreateToken refLib [("activeUser", .string "alice")] 0).1).2 = none ∧
    (5 : Int) ≥ 5 ∧
    (ParseToken refLib 5 (CreateToken refLib [("activeUser", .string "alice")] 5).1).2
      = none := by
  obtain ⟨_, d0, _, hP0⟩ :=
    ParseToken_CreateToken refLib refLib_lawful [("activeUser", .string "alice")] 0 5
      (json_single refLib _ _ (json_string refLib "alice"))
  obtain ⟨_, d5, _, hP5⟩ :=
    ParseToken_CreateToken refLib refLib_lawful [("activeUser", .string "alice")] 5 5
      (json_single refLib _ _ (json_string refLib "alice"))
  refine ⟨by decide, ?_, by decide, ?_⟩
  · rw [hP0]; rfl
  · rw [hP5]; rfl

/-- A string of three segments whose first two decode to a header and a claims value
passes `ParseUnverified` when the header names a registered method. -/
theorem ParseUnverified_segments (L : Lib) (hL : L.Lawful) (b1 b2 : List Nat) (sig a : String)
    (hsig : '.' ∉ sig.data) (h : GoMap) (c : Claims) (m : SigningMethod)
    (hu : L.unmarshalHeader b1 = .ok h) (hc : L.unmarshalClaims b2 = .ok c)
    (ha : h.lookup "alg" = some (.string a)) (hm : GetSigningMethod a = some m) :
    ParseUnverified L (L.EncodeSegment b1 ++ String.singleton '.' ++ L.EncodeSegment b2 ++
        String.singleton '.' ++ sig)
      = .ok ({ Raw := L.EncodeSegment b1 ++ String.singleton '.' ++ L.EncodeSegment b2 ++
                 String.singleton '.' ++ sig,
               Method := m, Header := h, Claims := c, Signature := "", Valid := false },
             [L.EncodeSegment b1, L.EncodeSegment b2, sig]) := by
  have hsplit := Split_three (L.EncodeSegment b1) (L.EncodeSegment b2) sig '.'
    (hL.EncodeSegment_chars _).1 (hL.EncodeSegment_chars _).1 hsig
  simp [ParseUnverified, hsplit, hL.DecodeSegment_EncodeSegment, hu, hc, ha, hm]

/-- The header of a string of three segments is read from the first. -/
theorem headerAlg_segments (L : Lib) (hL : L.Lawful) (b1 : List Nat) (s2 sig a : String)
    (h2 : '.' ∉ s2.data) (h3 : '.' ∉ sig.data) (h : GoMap)
    (hu : L.unmarshalHeader b1 = .ok h) (ha : h.lookup "alg" = some (.string a)) :
    headerAlg L (L.EncodeSegment b1 ++ String.singleton '.' ++ s2 ++ String.singleton '.' ++ sig)
      = some a := by
  have hsplit := Split_three (L.EncodeSegment b1) s2 sig '.' (hL.EncodeSegment_chars _).1 h2 h3
  simp [headerAlg, hsplit, hL.DecodeSegment_EncodeSegment, hu, ha]

/-- A token that passes `ParseUnverified` with a method outside the HMAC family fails on
the error of the key function. -/
theorem ParseToken_keyFunc_refuses (L : Lib) (now : Int) (t : String) (token : Token)
    (parts : List String) (h : ParseUnverified L t = .ok (token, parts))
    (hm : token.Method.isHMAC = false) :
    ParseToken L now t
      = (none, some (.jwtValidation
          (some ("invalid signing method " ++ L.formatMethod token.Method))
          ValidationErrorUnverifiable "")) := by
  simp only [ParseToken, ParseWithClaims, h, ParseToken.keyFunc, hm]
  rfl

theorem Example.noneToken_unverified :
    ParseUnverified refLib Example.noneToken
      = .ok ({ Raw := Example.noneToken, Method := .NONE,
               Header := [("typ", .string "JWT"), ("alg", .string "none")],
               Claims := { Data := some [("activeUser", .string "alice")], Audience := "",
                           ExpiresAt := 0, Id := "", IssuedAt := 0, Issuer := Issuer,
                           NotBefore := 0, Subject := "" },
               Signature := "", Valid := false },
             [refLib.EncodeSegment
                (Ref.serMap [("typ", .string "JWT"), ("alg", .string "none")]),
              refLib.EncodeSegment (Ref.serClaims
                { Data := some [("activeUser", .string "alice")], Audience := "",
                  ExpiresAt := 0, Id := "", IssuedAt := 0, Issuer := Issuer, NotBefore := 0,
                  Subject := "" }),
              ""]) := by
  have hu : refLib.unmarshalHeader
      (Ref.serMap [("typ", .string "JWT"), ("alg", .string "none")])
      = .ok [("typ", .string "JWT"), ("alg", .string "none")] := by
    have := Ref.pMap_ser [("typ", .string "JWT"), ("alg", .string "none")] []
    rw [List.append_nil] at this
    simp [refLib, Ref.unmarshalHeader, this, Ref.readBack]
  have hc : refLib.unmarshalClaims (Ref.serClaims
      { Data := some [("activeUser", .string "alice")], Audience := "", ExpiresAt := 0,
        Id := "", IssuedAt := 0, Issuer := Issuer, NotBefore := 0, Subject := "" })
      = .ok { Data := some [("activeUser", .string "alice")], Audience := "",
              ExpiresAt := 0, Id := "", IssuedAt := 0, Issuer := Issuer, NotBefore := 0,
              Subject := "" } := by
    have hp := Ref.pClaims_ser
      { Data := some [("activeUser", .string "alice")], Audience := "", ExpiresAt := 0,
        Id := "", IssuedAt := 0, Issuer := Issuer, NotBefore := 0, Subject := "" }
      [("activeUser", .string "alice")] rfl
    simp [refLib, Ref.unmarshalClaims, hp, Ref.readBack]
  exact ParseUnverified_segments refLib refLib_lawful _ _ "" "none" (by simp) _ _ .NONE hu hc
    (by decide) (by decide)

theorem Example.noneToken_alg : headerAlg refLib Example.noneToken = some "none" := by
  have hu : refLib.unmarshalHeader
      (Ref.serMap [("typ", .string "JWT"), ("alg", .string "none")])
      = .ok [("typ", .string "JWT"), ("alg", .string "none")] := by
    have := Ref.pMap_ser [("typ", .string "JWT"), ("alg", .string "none")] []
    rw [List.append_nil] at this
    simp [refLib, Ref.unmarshalHeader, this, Ref.readBack]
  exact headerAlg_segments refLib refLib_lawful _ _ "" "none"
    (refLib_lawful.EncodeSegment_chars _).1 (by simp) _ hu (by decide)

theorem Example.noneToken_parse :
    ParseToken refLib 5 Example.noneToken
      = (none, some (.jwtValidation (some "invalid signing method none")
          ValidationErrorUnverifiable "")) := by
  rw [ParseToken_keyFunc_refuses refLib 5 _ _ _ Example.noneToken_unverified rfl]
  decide

/-- C6 (amended). A token string whose header asserts an algorithm outside the HMAC family
(any name other than HS256, HS384 and HS512) makes `ParseToken` return an error and the nil
map, whatever its other segments are; and the key function hands out the signing key only
for a method of the HMAC family. -/
theorem ParseToken_algorithm_check (L : Lib) (now : Int) (t a : String)
    (ha : headerAlg L t = some a) (h1 : a ≠ "HS256") (h2 : a ≠ "HS384") (h3 : a ≠ "HS512") :
    ((ParseToken L now t).1 = none ∧ (ParseToken L now t).2 ≠ none) ∧
    ∀ (token : Token) (key : String), ParseToken.keyFunc L token = .ok key →
      token.Method.isHMAC = true ∧ key = TokenEncodeString := by
  refine ⟨ParseToken_not_HMAC L now t a ha h1 h2 h3, ?_⟩
  intro token key hk
  unfold ParseToken.keyFunc at hk
  cases hm : token.Method.isHMAC with
  | false => simp [hm] at hk
  | true =>
    simp only [hm, Bool.not_true, Bool.false_eq_true, if_false, Except.ok.injEq] at hk
    exact ⟨rfl, hk.symm⟩

/-- C6 (amended), at a concrete input: a token of three segments whose header asserts
the algorithm "none", with the claims of a login and the empty signature.  The token is
well formed, the library finds the method "none" for it, and the parse fails on the
answer of the key function. -/
theorem ParseToken_algorithm_check_witness :
    headerAlg refLib Example.noneToken = some "none" ∧
    (∃ token parts, ParseUnverified refLib Example.noneToken = .ok (token, parts) ∧
      token.Method = .NONE) ∧
    ((ParseToken refLib 5 Example.noneToken).1 = none ∧
      (ParseToken refLib 5 Example.noneToken).2 ≠ none) ∧
    ParseToken refLib 5 Example.noneToken
      = (none, some (.jwtValidation (some "invalid signing method none")
          ValidationErrorUnverifiable "")) :=
  ⟨Example.noneToken_alg, ⟨_, _, Example.noneToken_unverified, rfl⟩,
   (ParseToken_algorithm_check refLib 5 Example.noneToken "none" Example.noneToken_alg
      (by decide) (by decide) (by decide)).1,
   Example.noneToken_parse⟩

/-- C6 as stated fails for the algorithm HS384: a token whose header asserts HS384, which
is not the HS256 of `CreateToken`, and whose signature is the HS384 digest under the key
of the server, parses without error. -/
theorem ParseToken_accepts_HS384 :
    headerAlg refLib ((NewWithClaims .HS384
        { Data := some [("activeUser", .string "alice")], Audience := "", ExpiresAt := 0,
          Id := "", IssuedAt := 0, Issuer := Issuer, NotBefore := 0, Subject := "" }).SignedString
        refLib TokenEncodeString).1 = some "HS384" ∧
    "HS384" ≠ "HS256" ∧
    (ParseToken refLib 5 ((NewWithClaims .HS384
        { Data := some [("activeUser", .string "alice")], Audience := "", ExpiresAt := 0,
          Id := "", IssuedAt := 0, Issuer := Issuer, NotBefore := 0, Subject := "" }).SignedString
        refLib TokenEncodeString).1).2 = none := by
  refine ⟨headerAlg_signed refLib refLib_lawful .HS384 rfl _ _ rfl
    (json_single refLib _ _ (json_string refLib "alice")) _, by decide, ?_⟩
  obtain ⟨_, d', _, hP⟩ := ParseToken_signed refLib refLib_lawful .HS384 rfl
    { Data := some [("activeUser", .string "alice")], Audience := "", ExpiresAt := 0,
      Id := "", IssuedAt := 0, Issuer := Issuer, NotBefore := 0, Subject := "" }
    [("activeUser", .string "alice")] rfl
    (json_single refLib _ _ (json_string refLib "alice")) 5
  rw [hP]
  have : (StandardClaims.Valid refLib
      { Audience := "", ExpiresAt := 0, Id := "", IssuedAt := 0, Issuer := Issuer,
        NotBefore := 0, Subject := "" } 5).2 = 0 := by
    rw [Valid_eq_zero]; decide
  rw [if_pos this]

/-- C7. Whenever `ParseToken` returns an error, whatever the reason, it returns the nil map
with it; and whenever the parse of the token part of a well-formed Authorization header
fails, `getUserFromToken` returns the empty username and the one error "invalid token". -/
theorem ParseToken_failure_uniform (L : Lib) (now : Int) :
    (∀ t, (ParseToken L now t).2 ≠ none → (ParseToken L now t).1 = none) ∧
    (∀ r : Request, (Split (r.Header "Authorization") ' ').length = 2 →
      L.ToLower ((Split (r.Header "Authorization") ' ').getD 0 "") = "bearer" →
      (ParseToken L now ((Split (r.Header "Authorization") ' ').getD 1 "")).2 ≠ none →
      getUserFromToken L now r = ("", some (.errorString "invalid token"))) :=
  ⟨ParseToken_error_nil L now, getUserFromToken_invalid_token L now⟩

/-- C7, at a concrete input: the header "Bearer garbage", whose token has one segment. -/
theorem ParseToken_failure_uniform_witness :
    (ParseToken refLib 5 "garbage").1 = none ∧
    getUserFromToken refLib 5 (Example.request "Bearer garbage" "" { Values := [] })
      = ("", some (.errorString "invalid token")) :=
  ⟨(ParseToken_failure_uniform refLib 5).1 "garbage" (by decide),
   (ParseToken_failure_uniform refLib 5).2 _ (by decide) (by decide) (by decide)⟩

/-- C3. `getUserFromToken` answers "invalid header" with the empty username, whatever the
token library and the clock are (the token is not parsed), whenever splitting the
Authorization header on the space does not give two parts or the first part, lower-cased,
is not "bearer"; so it does for a missing header; and a header made of any casing of
"bearer", one space and a token without a space passes the check: the result is then
decided by `ParseToken` on that token. -/
theorem getUserFromToken_header (L : Lib) (now : Int) (r : Request) :
    ((Split (r.Header "Authorization") ' ').length ≠ 2 ∨
        L.ToLower ((Split (r.Header "Authorization") ' ').getD 0 "") ≠ "bearer" →
      ∀ (L' : Lib) (now' : Int), L'.unicodeToLower = L.unicodeToLower →
        getUserFromToken L' now' r = ("", some (.errorString "invalid header"))) ∧
    (r.Header "Authorization" = "" →
      getUserFromToken L now r = ("", some (.errorString "invalid header"))) ∧
    (∀ scheme token : String, scheme.data.map Char.toLower = "bearer".data →
      ' ' ∉ token.data → r.Header "Authorization" = scheme ++ String.singleton ' ' ++ token →
      Split (r.Header "Authorization") ' ' = [scheme, token] ∧
      L.ToLower scheme = "bearer" ∧
      getUserFromToken L now r =
        match ParseToken L now token with
        | (_, some _) => ("", some (.errorString "invalid token"))
        | (claims, none) =>
          match (claims.getD []).lookup "activeUser" with
          | some (.string au) => (au, none)
          | _ => ("", some (.errorString "invalid value"))) := by
  refine ⟨?_, ?_, ?_⟩
  · intro h L' now' hL'
    have hlow : ∀ s, L'.ToLower s = L.ToLower s := by
      intro s
      have hr : L'.runeToLower = L.runeToLower := by
        funext c
        simp only [Lib.runeToLower, hL']
      simp only [Lib.ToLower, hr]
    unfold getUserFromToken
    simp only [hlow]
    rw [if_pos h]
  · intro h
    unfold getUserFromToken
    rw [h]
    rfl
  · intro scheme token hs ht hr
    obtain ⟨hlow, hsp⟩ := ToLower_casing L scheme hs
    have hsplit := Split_two scheme token ' ' hsp ht
    rw [← hr] at hsplit
    refine ⟨hsplit, hlow, ?_⟩
    unfold getUserFromToken
    simp only [hsplit, List.length_cons, List.length_nil, List.getD_cons_zero,
      List.getD_cons_succ, hlow]
    rfl

/-- C3, at concrete inputs: the three casings "Bearer", "BEARER" and "bearer" pass the
check, and the header "Token abc" does not. -/
theorem getUserFromToken_header_witness :
    refLib.ToLower "Bearer" = "bearer" ∧ refLib.ToLower "BEARER" = "bearer" ∧
    refLib.ToLower "bearer" = "bearer" ∧
    getUserFromToken refLib 5 (Example.request "Token abc" "" { Values := [] })
      = ("", some (.errorString "invalid header")) :=
  ⟨((getUserFromToken_header refLib 5 (Example.request "Bearer abc" "" { Values := [] })).2.2
      "Bearer" "abc" (by decide) (by decide) (by decide)).2.1,
   ((getUserFromToken_header refLib 5 (Example.request "BEARER abc" "" { Values := [] })).2.2
      "BEARER" "abc" (by decide) (by decide) (by decide)).2.1,
   ((getUserFromToken_header refLib 5 (Example.request "bearer abc" "" { Values := [] })).2.2
      "bearer" "abc" (by decide) (by decide) (by decide)).2.1,
   (getUserFromToken_header refLib 5 (Example.request "Token abc" "" { Values := [] })).1
      (Or.inr (by decide)) refLib 5 rfl⟩

/-! ## The guards and the login handler -/

/-- The calls of `answer`: the content type, the status and, for data other than nil that
the connection takes, the encoded data. -/
theorem answer_calls (w : ResponseWriter) (status : Nat) :
    (answer w status none).calls = w.calls ++
      [.SetHeader "Content-Type" "application/json; charset=utf-8", .WriteHeader status] ∧
    ∀ d, w.encodeErr d = none → (answer w status (some d)).calls = w.calls ++
      [.SetHeader "Content-Type" "application/json; charset=utf-8", .WriteHeader status,
        .Encode d] := by
  constructor
  · simp [answer, ResponseWriter.call]
  · intro d hd
    simp [answer, ResponseWriter.call, hd]

/-- C1. For every request and every wrapped handler: if `getUserFromToken` fails, the
token guard answers status 400 with the error message as data (the calls on the writer
are the content type, status 400 and the encoding of the message) and its result does not
depend on the wrapped handler; if it succeeds and `GetUserByUsername` fails for the
username, the guard answers status 401 without data (no encoding call), again whatever the
wrapped handler is; otherwise the result of the guard is the result of the wrapped handler
on the same request and the untouched state, for every wrapped handler. -/
theorem ReqToken_spec (L : Lib) (next : HandlerFunc) (r : Request) (σ : World) :
    (∀ au err, getUserFromToken L σ.now.Unix r = (au, some err) →
      ReqToken L next r σ
        = .done { σ with w := answer σ.w StatusBadRequest (some (.string err.Error)) } ∧
      (σ.w.encodeErr (.string err.Error) = none →
        (answer σ.w StatusBadRequest (some (.string err.Error))).calls = σ.w.calls ++
          [.SetHeader "Content-Type" "application/json; charset=utf-8", .WriteHeader 400,
            .Encode (.string err.Error)])) ∧
    (∀ au, getUserFromToken L σ.now.Unix r = (au, none) →
      (σ.db.GetUserByUsername au).2 ≠ none →
      ReqToken L next r σ = .done { σ with w := answer σ.w StatusUnauthorized none } ∧
      (answer σ.w StatusUnauthorized none).calls = σ.w.calls ++
        [.SetHeader "Content-Type" "application/json; charset=utf-8", .WriteHeader 401]) ∧
    (∀ au, getUserFromToken L σ.now.Unix r = (au, none) →
      (σ.db.GetUserByUsername au).2 = none →
      ReqToken L next r σ = next r σ) := by
  refine ⟨?_, ?_, ?_⟩
  · intro au err h
    refine ⟨?_, (answer_calls σ.w StatusBadRequest).2 _⟩
    simp only [ReqToken, h]
  · intro au h hu
    refine ⟨?_, (answer_calls σ.w StatusUnauthorized).1⟩
    simp only [ReqToken, h]
    cases hg : (σ.db.GetUserByUsername au).2 with
    | none => exact absurd hg hu
    | some e => rfl
  · intro au h hu
    simp only [ReqToken, h, hu]

/-- C1, at concrete inputs: a request without Authorization header is answered with
status 400 and "invalid header", and a request with the header "Bearer garbage" with
status 400 and "invalid token". -/
theorem ReqToken_spec_witness :
    ReqToken refLib Example.next (Example.request "" "" { Values := [] })
        { w := Example.freshWriter, db := Example.aliceDB, now := Example.clock }
      = .done { w := answer Example.freshWriter 400 (some (.string "invalid header")),
                db := Example.aliceDB, now := Example.clock } ∧
    ReqToken refLib Example.next (Example.request "Bearer garbage" "" { Values := [] })
        { w := Example.freshWriter, db := Example.aliceDB, now := Example.clock }
      = .done { w := answer Example.freshWriter 400 (some (.string "invalid token")),
                db := Example.aliceDB, now := Example.clock } :=
  ⟨((ReqToken_spec refLib Example.next (Example.request "" "" { Values := [] })
      { w := Example.freshWriter, db := Example.aliceDB, now := Example.clock }).1
      "" (.errorString "invalid header") (by decide)).1,
   ((ReqToken_spec refLib Example.next (Example.request "Bearer garbage" "" { Values := [] })
      { w := Example.freshWriter, db := Example.aliceDB, now := Example.clock }).1
      "" (.errorString "invalid token") (by decide)).1⟩

/-- The session guard on a session that holds no "activeUser" or a string there: if the
session cannot be loaded, or holds no "activeUser", or `GetUserByUsername` fails for that
string, the guard redirects to "/" with status 302 and its result does not depend on the
wrapped handler; otherwise the result of the guard is the result of the wrapped handler
on the same request and the untouched state. -/
theorem ReqAuth_spec (next : HandlerFunc) (r : Request) (σ : World) :
    (r.sessionErr ≠ none ∨ r.session.Values.lookup "activeUser" = none ∨
        (∃ au, r.session.Values.lookup "activeUser" = some (.string au) ∧
          (σ.db.GetUserByUsername au).2 ≠ none) →
      ReqAuth next r σ = .done { σ with w := σ.w.call (.Redirect "/" 302) }) ∧
    (∀ au, r.sessionErr = none → r.session.Values.lookup "activeUser" = some (.string au) →
      (σ.db.GetUserByUsername au).2 = none →
      ReqAuth next r σ = next r σ) := by
  constructor
  · intro h
    unfold ReqAuth
    cases he : r.sessionErr with
    | some e => rfl
    | none =>
      rcases h with h | h | ⟨au, h, hu⟩
      · exact absurd he h
      · simp only [h]; rfl
      · simp only [h]
        cases hg : (σ.db.GetUserByUsername au).2 with
        | none => exact absurd hg hu
        | some e => rfl
  · intro au he h hu
    simp only [ReqAuth, he, h, hu]

/-- The session guard at concrete inputs: a request without session is redirected, and
the request of a logged-in user of the store is passed on. -/
theorem ReqAuth_spec_witness :
    ReqAuth Example.next (Example.request "" "" { Values := [] })
        { w := Example.freshWriter, db := Example.aliceDB, now := Example.clock }
      = .done { w := Example.freshWriter.call (.Redirect "/" 302),
                db := Example.aliceDB, now := Example.clock } ∧
    ReqAuth Example.next
        (Example.request "" "" { Values := [("activeUser", .string "alice")] })
        { w := Example.freshWriter, db := Example.aliceDB, now := Example.clock }
      = Example.next (Example.request "" "" { Values := [("activeUser", .string "alice")] })
        { w := Example.freshWriter, db := Example.aliceDB, now := Example.clock } :=
  ⟨(ReqAuth_spec Example.next (Example.request "" "" { Values := [] })
      { w := Example.freshWriter, db := Example.aliceDB, now := Example.clock }).1
      (Or.inr (Or.inl rfl)),
   (ReqAuth_spec Example.next
      (Example.request "" "" { Values := [("activeUser", .string "alice")] })
      { w := Example.freshWriter, db := Example.aliceDB, now := Example.clock }).2
      "alice" rfl (by decide) (by decide)⟩

/-- C2 fails on the code: for a session that loads and holds under "activeUser" a value
that is not a string, the guard neither redirects nor passes the request on: its
unchecked type assertion `au.(string)` panics, where `getUserFromToken` reads the same
claim with the checked form and answers an error. -/
theorem ReqAuth_panics :
    (Example.request "" "" { Values := [("activeUser", .int64 7)] }).sessionErr = none ∧
    List.lookup "activeUser" [("activeUser", SessionValue.int64 7)] ≠ none ∧
    ReqAuth Example.next (Example.request "" "" { Values := [("activeUser", .int64 7)] })
        { w := Example.freshWriter, db := Example.aliceDB, now := Example.clock }
      = .panic "interface conversion: interface is not string" ∧
    (∀ σ, ReqAuth Example.next
        (Example.request "" "" { Values := [("activeUser", .int64 7)] })
        { w := Example.freshWriter, db := Example.aliceDB, now := Example.clock } ≠ .done σ) := by
  refine ⟨rfl, by decide, ?_, ?_⟩
  · simp [ReqAuth, Example.request, List.lookup]
  · intro σ
    simp [ReqAuth, Example.request, List.lookup]

/-- C8. For every body that decodes to a login request: when the lookup of the username
yields no rows, and when the user exists but the password does not match, the login
handler gives the same response on the same writer: status 400 with the error
"login failed" and the empty token; the database is left as it was and no token is
created. -/
theorem userAuthenticateAPIHandler_uniform (L : Lib) (r : Request)
    (req : authenticationRequest) (σ1 σ2 : World) (user : User)
    (hdec : L.decodeAuthenticationRequest r.Body = .ok req)
    (hw : σ1.w = σ2.w)
    (h1 : (σ1.db.GetUserByUsername req.Username).2 = some GoError.ErrNoRows)
    (h2 : σ2.db.GetUserByUsername req.Username = (user, none))
    (h3 : L.CompareHashAndPassword user.Password req.Password ≠ none) :
    userAuthenticateAPIHandler L r σ1
      = .done { σ1 with w := answer σ1.w StatusBadRequest (some loginFailed) } ∧
    userAuthenticateAPIHandler L r σ2
      = .done { σ2 with w := answer σ1.w StatusBadRequest (some loginFailed) } ∧
    loginFailed = .authenticationResponse { Error := "login failed", Token := "" } := by
  refine ⟨?_, ?_, rfl⟩
  · unfold userAuthenticateAPIHandler
    simp only [hdec]
    cases hg : σ1.db.GetUserByUsername req.Username with
    | mk u e =>
      rw [hg] at h1
      simp only at h1
      subst h1
      rfl
  · unfold userAuthenticateAPIHandler
    simp only [hdec, h2, hw]
    cases hc : L.CompareHashAndPassword user.Password req.Password with
    | none => exact absurd hc h3
    | some e => rfl

/-- C8, at concrete inputs: the login "bob" with "pw" against the empty store, and the
login "alice" with "pw" against a store where the password of alice is another. -/
theorem userAuthenticateAPIHandler_uniform_witness :
    userAuthenticateAPIHandler refLib (Example.request "" "alice:pw" { Values := [] })
        { w := Example.freshWriter, db := Example.emptyDB, now := Example.clock }
      = .done { w := answer Example.freshWriter 400 (some loginFailed),
                db := Example.emptyDB, now := Example.clock } ∧
    userAuthenticateAPIHandler refLib (Example.request "" "alice:pw" { Values := [] })
        { w := Example.freshWriter, db := Example.aliceDB, now := Example.clock }
      = .done { w := answer Example.freshWriter 400 (some loginFailed),
                db := Example.aliceDB, now := Example.clock } :=
  have h := userAuthenticateAPIHandler_uniform refLib (Example.request "" "alice:pw" { Values := [] })
    { Username := "alice", Password := "pw" }
    { w := Example.freshWriter, db := Example.emptyDB, now := Example.clock }
    { w := Example.freshWriter, db := Example.aliceDB, now := Example.clock }
    Example.alice rfl rfl (by decide) (by decide) (by decide)
  ⟨h.1, h.2.1⟩

/-! ## The preview of a post -/

theorem closesBytes_append (mid post : List Nat) (h : 10 ∉ mid) :
    closesBytes (mid ++ 62 :: post) = true := by
  induction mid with
  | nil => simp [closesBytes]
  | cons b mid ih =>
    have hb : b ≠ 10 := fun e => h (by simp [e])
    have hm : 10 ∉ mid := fun e => h (by simp [e])
    rw [List.cons_append, closesBytes]
    by_cases h1 : b = 62
    · simp [h1]
    · simp only [h1, hb, if_false]
      exact ih hm

theorem tagFreeBytes_not_hasTag (b : List Nat) (h : tagFreeBytes b = true) : ¬ HasTag b := by
  rintro ⟨pre, mid, post, rfl, hmid⟩
  induction pre with
  | nil =>
    simp [tagFreeBytes, closesBytes_append mid post hmid] at h
  | cons p pre ih =>
    simp only [List.cons_append, tagFreeBytes, Bool.and_eq_true] at h
    exact ih h.2

theorem closesBytes_take (n : Nat) (b : List Nat) (h : closesBytes (b.take n) = true) :
    closesBytes b = true := by
  induction b generalizing n with
  | nil => simp [closesBytes] at h
  | cons x b ih =>
    cases n with
    | zero => simp [closesBytes] at h
    | succ n =>
      simp only [List.take_succ_cons, closesBytes] at h ⊢
      by_cases h1 : x = 62
      · simp [h1]
      · by_cases h2 : x = 10
        · simp [h1, h2] at h
        · simp only [h1, h2, if_false] at h ⊢
          exact ih n h

theorem tagFreeBytes_take (n : Nat) (b : List Nat) (h : tagFreeBytes b = true) :
    tagFreeBytes (b.take n) = true := by
  induction b generalizing n with
  | nil => simp [tagFreeBytes]
  | cons x b ih =>
    cases n with
    | zero => simp [tagFreeBytes]
    | succ n =>
      simp only [tagFreeBytes, Bool.and_eq_true, Bool.or_eq_true, decide_eq_true_eq,
        Bool.not_eq_true', List.take_succ_cons] at h ⊢
      refine ⟨?_, ih n h.2⟩
      rcases h.1 with h1 | h1
      · exact Or.inl h1
      · right
        cases hc : closesBytes (b.take n) with
        | false => rfl
        | true => rw [closesBytes_take n b hc] at h1; exact absurd h1 (by simp)

theorem Char.eq_of_toNat (c d : Char) (h : c.toNat = d.toNat) : c = d := by
  rw [← Char.ofNat_toNat c, ← Char.ofNat_toNat d, h]

/-- The bytes of a character: the character itself when it is one of ASCII, and bytes
from 128 on otherwise. -/
theorem utf8EncodeRune_cases (c : Char) :
    (c.toNat < 128 ∧ utf8EncodeRune c = [c.toNat]) ∨
    (128 ≤ c.toNat ∧ ∀ b ∈ utf8EncodeRune c, 128 ≤ b) := by
  unfold utf8EncodeRune
  by_cases h1 : c.toNat < 0x80
  · left; simp [h1]
  · right
    refine ⟨by omega, ?_⟩
    simp only [h1, if_false]
    split
    · intro b hb; simp at hb; omega
    · split
      · intro b hb; simp at hb; omega
      · intro b hb; simp at hb; omega

theorem closesBytes_high (hi rest : List Nat) (h : ∀ b ∈ hi, 128 ≤ b) :
    closesBytes (hi ++ rest) = closesBytes rest := by
  induction hi with
  | nil => rfl
  | cons x hi ih =>
    have hx : 128 ≤ x := h x (by simp)
    have h1 : x ≠ 62 := by omega
    have h2 : x ≠ 10 := by omega
    simp only [List.cons_append, closesBytes, h1, h2, if_false]
    exact ih (fun b hb => h b (by simp [hb]))

theorem tagFreeBytes_high (hi rest : List Nat) (h : ∀ b ∈ hi, 128 ≤ b) :
    tagFreeBytes (hi ++ rest) = tagFreeBytes rest := by
  induction hi with
  | nil => rfl
  | cons x hi ih =>
    have hx : 128 ≤ x := h x (by simp)
    have h1 : x ≠ 60 := by omega
    simp only [List.cons_append, tagFreeBytes, h1, ne_eq, not_false_eq_true, decide_True,
      Bool.true_or, Bool.true_and]
    exact ih (fun b hb => h b (by simp [hb]))

theorem closesBytes_utf8 (cs : List Char) : closesBytes (utf8 cs) = closesTag cs := by
  induction cs with
  | nil => rfl
  | cons c cs ih =>
    have hutf : utf8 (c :: cs) = utf8EncodeRune c ++ utf8 cs := by simp [utf8]
    rw [hutf]
    rcases utf8EncodeRune_cases c with ⟨_, he⟩ | ⟨hge, hb⟩
    · rw [he]
      have h1 : c.toNat = 62 ↔ c = '>' :=
        ⟨fun h => Char.eq_of_toNat c '>' h, fun h => by rw [h]; rfl⟩
      have h2 : c.toNat = 10 ↔ c = '\n' :=
        ⟨fun h => Char.eq_of_toNat c '\n' h, fun h => by rw [h]; rfl⟩
      rw [List.singleton_append]
      simp only [closesBytes, closesTag, h1, h2, ih]
    · rw [closesBytes_high _ _ hb, ih]
      have h1 : c ≠ '>' := by
        intro e; rw [e] at hge; revert hge; decide
      have h2 : c ≠ '\n' := by
        intro e; rw [e] at hge; revert hge; decide
      simp [closesTag, h1, h2]

theorem tagFreeBytes_utf8 (cs : List Char) : tagFreeBytes (utf8 cs) = tagFreeChars cs := by
  induction cs with
  | nil => rfl
  | cons c cs ih =>
    have hutf : utf8 (c :: cs) = utf8EncodeRune c ++ utf8 cs := by simp [utf8]
    rw [hutf]
    rcases utf8EncodeRune_cases c with ⟨_, he⟩ | ⟨hge, hb⟩
    · rw [he]
      have h1 : c.toNat = 60 ↔ c = '<' :=
        ⟨fun h => Char.eq_of_toNat c '<' h, fun h => by rw [h]; rfl⟩
      rw [List.singleton_append]
      simp only [tagFreeBytes, tagFreeChars, closesBytes_utf8, ih, ne_eq, h1]
    · rw [tagFreeBytes_high _ _ hb, ih]
      have h1 : c ≠ '<' := by
        intro e; rw [e] at hge; revert hge; decide
      simp [tagFreeChars, h1]

/-- Dropping the matches does not bring a `>` before the first newline. -/
theorem closesTag_stripTags (cs : List Char) (h : closesTag (stripTags false cs) = true) :
    closesTag cs = true := by
  induction cs with
  | nil => simp [stripTags, closesTag] at h
  | cons c cs ih =>
    by_cases hc : c = '<' ∧ closesTag cs = true
    · have h1 : c ≠ '>' := by rw [hc.1]; decide
      have h2 : c ≠ '\n' := by rw [hc.1]; decide
      simp [closesTag, h1, h2, hc.2]
    · simp only [stripTags, hc, if_false, closesTag] at h ⊢
      by_cases h1 : c = '>'
      · simp [h1]
      · by_cases h2 : c = '\n'
        · simp [h1, h2] at h
        · simp only [h1, h2, if_false] at h ⊢
          exact ih h

/-- The text without the matches holds no match. -/
theorem tagFreeChars_stripTags (inTag : Bool) (cs : List Char) :
    tagFreeChars (stripTags inTag cs) = true := by
  induction cs generalizing inTag with
  | nil => cases inTag <;> rfl
  | cons c cs ih =>
    cases inTag with
    | true =>
      simp only [stripTags]
      split
      · exact ih false
      · exact ih true
    | false =>
      by_cases hc : c = '<' ∧ closesTag cs = true
      · simp only [stripTags, hc, and_self, if_true]
        exact ih true
      · simp only [stripTags, hc, if_false, tagFreeChars, Bool.and_eq_true, Bool.or_eq_true,
          decide_eq_true_eq, Bool.not_eq_true']
        refine ⟨?_, ih false⟩
        by_cases h1 : c = '<'
        · right
          cases hs : closesTag (stripTags false cs) with
          | false => rfl
          | true => exact absurd ⟨h1, closesTag_stripTags cs hs⟩ hc
        · exact Or.inl h1

/-- C18. For every post, the bytes that `Preview` returns hold no part that starts with
`<`, ends with `>` and has no newline in between: dropping the leftmost shortest matches
of the pattern leaves no match, and a prefix of 100 bytes has no match that the whole
has not. -/
theorem Post.Preview_tagFree (p : Post) : ¬ HasTag p.Preview := by
  apply tagFreeBytes_not_hasTag
  unfold Post.Preview
  apply tagFreeBytes_take
  rw [tagFreeBytes_utf8]
  exact tagFreeChars_stripTags false _
/-- C15 fails on the code: for a body of 34 euro signs the text without tags has 34
characters, fewer than 100, yet `Preview` returns 100 bytes and not the 102 bytes of the
whole text, since `len` and the slice count bytes; and a tag with a newline in it is not
removed, since the dot of the pattern matches no newline. -/
theorem Post.Preview_counts_bytes :
    (stripTags false Example.euros.Body.data).length = 34 ∧
    (utf8 (stripTags false Example.euros.Body.data)).length = 102 ∧
    Example.euros.Preview.length = 100 ∧
    Example.euros.Preview ≠ utf8 (stripTags false Example.euros.Body.data) ∧
    Example.brokenTag.Preview = utf8 "<a\nb>x".data := by
  decide

/-! ## The store of users and posts -/

theorem find?_replaceUser (db : DB) (username name password : String) :
    (db.replaceUser username name password).users.find? (fun u => u.Username = username)
      = some { ID := db.userSeq + 1, Username := username, Name := name,
               Password := password } := by
  have hnone : (db.users.filter (fun u => u.Username ≠ username)).find?
      (fun u => u.Username = username) = none := by
    rw [List.find?_eq_none]
    intro x hx
    have := (List.mem_filter.1 hx).2
    simpa using this
  simp [DB.replaceUser, List.find?_append, hnone]

/-- C11 (amended). For every user and password, when the write succeeds: if the password
argument is not empty, the row written for the username carries the hash that bcrypt
made of it; if the password argument is empty, the row carries the `Password` field of
the user argument as it was given, so the hash stored before is kept only when the caller
passes it in that field. -/
theorem DB.SaveUser_password (L : WebLib) (db : DB) (user : User) (password : String)
    (hp : db.prepareErr saveUserQuery = none) (he : db.execErr saveUserQuery = none) :
    (∀ hash, password ≠ "" → L.GenerateFromPassword password = (hash, none) →
      (db.SaveUser L user password).2.2 = none ∧
      ((db.SaveUser L user password).1.users.find? (fun u => u.Username = user.Username)).map
        (fun u => u.Password) = some hash) ∧
    (password = "" →
      (db.SaveUser L user password).2.2 = none ∧
      ((db.SaveUser L user password).1.users.find? (fun u => u.Username = user.Username)).map
        (fun u => u.Password) = some user.Password) := by
  constructor
  · intro hash hne hg
    simp only [DB.SaveUser, hne, ne_eq, not_false_eq_true, if_true, hg, hp, he,
      find?_replaceUser]
    exact ⟨trivial, rfl⟩
  · intro hempty
    subst hempty
    simp only [DB.SaveUser, ne_eq, not_true_eq_false, if_false, hp, he, find?_replaceUser]
    exact ⟨trivial, rfl⟩

/-- C11 (amended), at concrete inputs: alice is saved with the password "pw1", and then
with the empty password and the stored hash in the `Password` field. -/
theorem DB.SaveUser_password_witness :
    ((Example.emptyDB.SaveUser refWebLib
        { ID := 0, Username := "alice", Name := "Alice", Password := "" } "pw1").1.users.find?
      (fun u => u.Username = "alice")).map (fun u => u.Password) = some "$2a$10$pw1" ∧
    ((Example.registeredDB.SaveUser refWebLib
        { ID := 0, Username := "alice", Name := "Al", Password := "$2a$10$pw1" } "").1.users.find?
      (fun u => u.Username = "alice")).map (fun u => u.Password) = some "$2a$10$pw1" :=
  ⟨((DB.SaveUser_password refWebLib Example.emptyDB
      { ID := 0, Username := "alice", Name := "Alice", Password := "" } "pw1" rfl rfl).1
      "$2a$10$pw1" (by decide) rfl).2,
   ((DB.SaveUser_password refWebLib Example.registeredDB
      { ID := 0, Username := "alice", Name := "Al", Password := "$2a$10$pw1" } "" rfl rfl).2
      rfl).2⟩

/-- C11 as stated fails for the empty password: after alice is saved with the password
"pw1" her row holds a hash; saving her again with the empty password and a user value
without that hash, as `userSaveHandler` does for empty password fields, writes the empty
`Password` of the given user over the hash. -/
theorem DB.SaveUser_empty_password :
    (Example.registeredDB.GetUserByUsername "alice").1.Password = "$2a$10$pw1" ∧
    ((Example.registeredDB.SaveUser refWebLib
        { ID := 0, Username := "alice", Name := "Alice", Password := "" } "").1.GetUserByUsername
      "alice").1.Password = "" := by
  decide
/-- C12 fails on the code: the registration of alice with the password "pw1" stores a
hash for her username, and her later registration with the password fields left empty
stores the empty string in its place. -/
theorem userSaveHandler_empties_hash :
    ∃ σ1 σ2 : World,
      userSaveHandler refWebLib Example.register
          { w := Example.freshWriter, db := Example.emptyDB, now := Example.clock }
        = .done σ1 ∧
      (σ1.db.GetUserByUsername "alice").1.Password = "$2a$10$pw1" ∧
      userSaveHandler refWebLib Example.registerAgain
          { w := Example.freshWriter, db := σ1.db, now := Example.later }
        = .done σ2 ∧
      (σ2.db.GetUserByUsername "alice").2 = none ∧
      (σ2.db.GetUserByUsername "alice").1.Password = "" :=
  ⟨_, _, rfl, by decide, rfl, by decide, by decide⟩

/-- C14 fails on the code: alice registers, saves the post "hi" and registers again, which
replaces her user row by one with a new id; the store still holds the post "hi", and
`postGetAPIHandler` answers the request for it with status 400 and the error of the scan,
not with status 200 and the post. -/
theorem postGetAPIHandler_orphan :
    ((Example.postedDB.SaveUser refWebLib
        { ID := 0, Username := "alice", Name := "Alice", Password := "" } "pw2").1.posts.find?
      (fun row => row.slug = "hi")).map (fun row => row.title) = some "Hi" ∧
    postGetAPIHandler (Example.slugRequest "hi")
        { w := Example.freshWriter,
          db := (Example.postedDB.SaveUser refWebLib
            { ID := 0, Username := "alice", Name := "Alice", Password := "" } "pw2").1,
          now := Example.later }
      = .done
        { w := answer Example.freshWriter 400
            (some (.postResponse { Error := scanNullName.Error, Post := Post.zero })),
          db := (Example.postedDB.SaveUser refWebLib
            { ID := 0, Username := "alice", Name := "Alice", Password := "" } "pw2").1,
          now := Example.later } :=
  ⟨by decide, rfl⟩
/-! ## The post handlers of the API -/

theorem refWebLib_lawful : refWebLib.toLib.Lawful :=
  ⟨refLib_lawful.1, refLib_lawful.2, refLib_lawful.3, refLib_lawful.4, refLib_lawful.5⟩

/-- The token of `CreateToken` holds no space, so it is one part of an Authorization
header. -/
theorem CreateToken_no_space (L : Lib) (hL : L.Lawful) (data : GoMap) (exp : Int) :
    ' ' ∉ (CreateToken L data exp).1.data := by
  rw [CreateToken_eq]
  rcases SignedString_segments L .HS256 _ TokenEncodeString with h | ⟨b1, b2, b3, h⟩
  · rw [h]
    simp
  rw [h]
  have hdot : ("." : String).data = ['.'] := rfl
  simp only [String.data_append, hdot, List.mem_append, List.mem_singleton, not_or]
  exact ⟨⟨⟨⟨(hL.EncodeSegment_chars b1).2, by decide⟩, (hL.EncodeSegment_chars b2).2⟩,
    by decide⟩, (hL.EncodeSegment_chars b3).2⟩

/-- A request that carries, after "Bearer", the token that `CreateToken` made for a
username resolves to that username while the token has not expired. -/
theorem getUserFromToken_bearer (L : Lib) (hL : L.Lawful) (u : String) (exp now : Int)
    (r : Request) (hexp : exp = 0 ∨ now ≤ exp)
    (hr : r.Header "Authorization" = "Bearer" ++ String.singleton ' ' ++
      (CreateToken L [("activeUser", .string u)] exp).1) :
    getUserFromToken L now r = (u, none) := by
  obtain ⟨hlow, hsp⟩ := ToLower_casing L "Bearer" (by decide)
  have hsplit := Split_two "Bearer" (CreateToken L [("activeUser", .string u)] exp).1 ' ' hsp
    (CreateToken_no_space L hL _ exp)
  rw [← hr] at hsplit
  obtain ⟨_, d', hd', hP⟩ := ParseToken_CreateToken L hL [("activeUser", .string u)] exp now
    (json_single L _ _ (json_string L u))
  rw [if_pos hexp] at hP
  have hlook : d'.lookup "activeUser" = some (.string u) := by
    rw [hd']; rfl
  unfold getUserFromToken
  simp only [hsplit, List.length_cons, List.length_nil, List.getD_cons_zero,
    List.getD_cons_succ, hlow, hP]
  simp [hlook]

theorem find?_replacePost (db : DB) (row : PostRow) :
    (db.replacePost row).posts.find? (fun r => r.slug = row.slug) = some row := by
  have hnone : (db.posts.filter (fun r => r.slug ≠ row.slug)).find?
      (fun r => r.slug = row.slug) = none := by
    rw [List.find?_eq_none]
    intro x hx
    have := (List.mem_filter.1 hx).2
    simpa using this
  simp [DB.replacePost, List.find?_append, hnone]

/-- The row that a successful `SavePost` stores under the slug carries the user id of the
post. -/
theorem SavePost_user_id (db db' : DB) (now : Time) (post post' : Post)
    (h : db.SavePost now post = (db', post', none)) :
    post'.UserID = post.UserID ∧
    (db'.posts.find? (fun r => r.slug = post.Slug)).map (fun r => r.user_id)
      = some post.UserID := by
  unfold DB.SavePost at h
  cases hp : db.prepareErr savePostQuery with
  | some e => simp [hp] at h
  | none =>
    cases he : db.execErr savePostQuery with
    | some e => simp [hp, he] at h
    | none =>
      simp only [hp, he, Prod.mk.injEq, and_true] at h
      obtain ⟨hdb, hpost⟩ := h
      subst hdb hpost
      refine ⟨by split <;> rfl, ?_⟩
      have := find?_replacePost db
        { slug := post.Slug, user_id := post.UserID, title := post.Title, body := post.Body,
          created := (if post.Created.IsZero = true then { post with Created := now }
            else post).Created, modified := now }
      have hs : (if post.Created.IsZero = true then { post with Created := now }
          else post).Slug = post.Slug := by split <;> rfl
      have hu : (if post.Created.IsZero = true then { post with Created := now }
          else post).UserID = post.UserID := by split <;> rfl
      have ht : (if post.Created.IsZero = true then { post with Created := now }
          else post).Title = post.Title := by split <;> rfl
      have hb : (if post.Created.IsZero = true then { post with Created := now }
          else post).Body = post.Body := by split <;> rfl
      simp only [hs, hu, ht, hb]
      simp only at this
      rw [this]
      rfl

/-- A user that `GetUserByUsername` returns without error is a row of the store that
carries the username asked for; it is the only such row when the usernames of the store
are distinct, as the column `username` declares. -/
theorem GetUserByUsername_named (db : DB) (name : String) (u : User)
    (h : db.GetUserByUsername name = (u, none)) :
    u ∈ db.users ∧ u.Username = name ∧
    (∀ x ∈ db.users, x.Username = name →
      db.users.Pairwise (fun a b => a.Username ≠ b.Username) → x = u) := by
  unfold DB.GetUserByUsername at h
  split at h
  · cases h
  · split at h
    · cases h
    · split at h
      · cases h
      · rename_i u' hfind
        cases h
        have hmem := List.mem_of_find?_eq_some hfind
        have hname : u.Username = name := by
          have := List.find?_some hfind
          simpa using this
        refine ⟨hmem, hname, ?_⟩
        intro x hx hxn hp
        by_contra hne
        have hsymm : Symmetric (fun a b : User => a.Username ≠ b.Username) :=
          fun a b hab => Ne.symm hab
        exact hp.forall hsymm hx hmem hne (by rw [hxn, hname])

/-- C17. In `postCreateUpdateAPIHandler`, when the body decodes, the token yields a
username, that user resolves in the store and `Validate` passes: the user is a row of
the store that carries the username of the token (the only one when usernames are
distinct), and `SavePost` is called with the decoded post whose UserID is the id of that
row, whatever the body holds: on success the response is 201, the returned post and the
stored row carry that id; on failure the store is as before and the status is 400.  In
every other case (the body does not decode, the token yields no username, the user does
not resolve, or `Validate` fails) the store is as before and the status is 400. -/
theorem postCreateUpdateAPIHandler_author (L : WebLib) (r : Request) (σ : World) :
    (∀ req au user, L.decodePost r.Body = .ok req →
      getUserFromToken L.toLib σ.now.Unix r = (au, none) →
      σ.db.GetUserByUsername au = (user, none) →
      ({ req with UserID := user.ID } : Post).Validate = none →
      (user ∈ σ.db.users ∧ user.Username = au ∧
        ∀ u ∈ σ.db.users, u.Username = au →
          σ.db.users.Pairwise (fun a b => a.Username ≠ b.Username) → u = user) ∧
      (∀ db post, σ.db.SavePost σ.now { req with UserID := user.ID } = (db, post, none) →
        postCreateUpdateAPIHandler L r σ
          = .done { w := answer σ.w StatusCreated
                      (some (.postResponse { Error := "", Post := post })),
                    db := db, now := σ.now } ∧
        post.UserID = user.ID ∧
        (db.posts.find? (fun row => row.slug = req.Slug)).map (fun row => row.user_id)
          = some user.ID) ∧
      (∀ db post err, σ.db.SavePost σ.now { req with UserID := user.ID }
          = (db, post, some err) →
        ∃ data, postCreateUpdateAPIHandler L r σ
          = .done { σ with w := answer σ.w StatusBadRequest (some data) })) ∧
    ((∃ err, L.decodePost r.Body = .error err) ∨
        (getUserFromToken L.toLib σ.now.Unix r).2 ≠ none ∨
        (∃ au, getUserFromToken L.toLib σ.now.Unix r = (au, none) ∧
          (σ.db.GetUserByUsername au).2 ≠ none) ∨
        (∃ req au user, L.decodePost r.Body = .ok req ∧
          getUserFromToken L.toLib σ.now.Unix r = (au, none) ∧
          σ.db.GetUserByUsername au = (user, none) ∧
          ({ req with UserID := user.ID } : Post).Validate ≠ none) →
      ∃ data, postCreateUpdateAPIHandler L r σ
        = .done { σ with w := answer σ.w StatusBadRequest (some data) }) := by
  constructor
  · intro req au user hd ht hu hv
    refine ⟨GetUserByUsername_named _ _ _ hu, ?_, ?_⟩
    · intro db post hs
      refine ⟨?_, SavePost_user_id _ _ _ _ _ hs⟩
      simp only [postCreateUpdateAPIHandler, hd, ht, hu, hv, hs]
    · intro db post err hs
      refine ⟨.postResponse { Error := err.Error, Post := Post.zero }, ?_⟩
      simp only [postCreateUpdateAPIHandler, hd, ht, hu, hv, hs]
      rfl
  · intro h
    unfold postCreateUpdateAPIHandler
    cases hd : L.decodePost r.Body with
    | error err => exact ⟨.postResponse { Error := err.Error, Post := Post.zero }, rfl⟩
    | ok req =>
      dsimp only
      cases ht : getUserFromToken L.toLib σ.now.Unix r with
      | mk au terr =>
        cases terr with
        | some e => exact ⟨.string e.Error, rfl⟩
        | none =>
          dsimp only
          cases hu : σ.db.GetUserByUsername au with
          | mk user uerr =>
            cases uerr with
            | some e => exact ⟨.string e.Error, rfl⟩
            | none =>
              dsimp only
              cases hv : ({ req with UserID := user.ID } : Post).Validate with
              | some e => exact ⟨.postResponse { Error := e.Error, Post := Post.zero }, rfl⟩
              | none =>
                exfalso
                rcases h with ⟨err, h⟩ | h | ⟨au', h, h'⟩ | ⟨req', au', user', h1, h2, h3, h4⟩
                · rw [hd] at h; cases h
                · rw [ht] at h; exact h rfl
                · rw [ht] at h
                  cases h
                  rw [hu] at h'; exact h' rfl
                · rw [hd] at h1
                  rw [ht] at h2
                  cases h1
                  cases h2
                  rw [hu] at h3
                  cases h3
                  exact h4 hv
theorem Example.tokenRequest_user (body : String) :
    getUserFromToken refWebLib.toLib Example.clock.Unix (Example.tokenRequest body)
      = ("alice", none) :=
  getUserFromToken_bearer refWebLib.toLib refWebLib_lawful "alice" 100 _ _
    (Or.inr (by decide)) rfl

/-- C17, at a concrete input: the store holds bob with the id 1 and alice with the id 2;
alice posts "hi" with her token and a body; the user found is the row of alice, and the
returned post and the stored row carry her id 2. -/
theorem postCreateUpdateAPIHandler_author_witness :
    Example.crowdDB.users.map (fun u => (u.ID, u.Username)) = [(1, "bob"), (2, "alice")] ∧
    ({ ID := 2, Username := "alice", Name := "Alice", Password := "$2a$10$pw1" } : User)
      ∈ Example.crowdDB.users ∧
    ∃ db post,
      postCreateUpdateAPIHandler refWebLib (Example.tokenRequest "hi|Hi|x")
          { w := Example.freshWriter, db := Example.crowdDB, now := Example.clock }
        = .done { w := answer Example.freshWriter 201
                    (some (.postResponse { Error := "", Post := post })),
                  db := db, now := Example.clock } ∧
      post.UserID = 2 ∧
      (db.posts.find? (fun row => row.slug = "hi")).map (fun row => row.user_id) = some 2 :=
  have h := (postCreateUpdateAPIHandler_author refWebLib (Example.tokenRequest "hi|Hi|x")
      { w := Example.freshWriter, db := Example.crowdDB, now := Example.clock }).1
      { Slug := "hi", UserID := 0, Author := "", Title := "Hi", Body := "x",
        Created := Time.zero, Modified := Time.zero }
      "alice" { ID := 2, Username := "alice", Name := "Alice", Password := "$2a$10$pw1" }
      rfl (Example.tokenRequest_user _) (by decide) (by decide)
  ⟨by decide, h.1.1, _, _, h.2.1 _ _ rfl⟩

/-- C13 (amended). For every request to the post routes, that is to
`postCreateUpdateAPIHandler` behind `ReqToken`: when `getUserFromToken` fails the data of
the response is the error message as a bare string, with status 400; when the user of the
token does not resolve the response has status 401 and no data; and when the guard passes
the request on, the response is either 201 with the saved post or 400 with a
`postResponse`, a structure with an error field.  The handler on its own repeats the two
checks of the guard after decoding the body, and answers a failure of either with status
400 and the error message as a bare string. -/
theorem postRoute_error_bodies (L : WebLib) (r : Request) (σ : World) :
    (∀ au err, getUserFromToken L.toLib σ.now.Unix r = (au, some err) →
      ReqToken L.toLib (postCreateUpdateAPIHandler L) r σ
        = .done { σ with w := answer σ.w StatusBadRequest (some (.string err.Error)) }) ∧
    (∀ au, getUserFromToken L.toLib σ.now.Unix r = (au, none) →
      (σ.db.GetUserByUsername au).2 ≠ none →
      ReqToken L.toLib (postCreateUpdateAPIHandler L) r σ
        = .done { σ with w := answer σ.w StatusUnauthorized none }) ∧
    (∀ au, getUserFromToken L.toLib σ.now.Unix r = (au, none) →
      (σ.db.GetUserByUsername au).2 = none →
      (∃ db post, ReqToken L.toLib (postCreateUpdateAPIHandler L) r σ
        = .done { w := answer σ.w StatusCreated
                    (some (.postResponse { Error := "", Post := post })),
                  db := db, now := σ.now }) ∨
      (∃ data, data.hasErrorField = true ∧
        ReqToken L.toLib (postCreateUpdateAPIHandler L) r σ
          = .done { σ with w := answer σ.w StatusBadRequest (some data) })) ∧
    (∀ req au err, L.decodePost r.Body = .ok req →
      (getUserFromToken L.toLib σ.now.Unix r = (au, some err) ∨
        (getUserFromToken L.toLib σ.now.Unix r = (au, none) ∧
          ∃ user, σ.db.GetUserByUsername au = (user, some err))) →
      postCreateUpdateAPIHandler L r σ
        = .done { σ with w := answer σ.w StatusBadRequest (some (.string err.Error)) }) := by
  refine ⟨?_, ?_, ?_, ?_⟩
  · intro au err h
    simp only [ReqToken, h]
  · intro au h hu
    simp only [ReqToken, h]
    cases hg : (σ.db.GetUserByUsername au).2 with
    | none => exact absurd hg hu
    | some e => rfl
  · intro au h hu
    have hR : ReqToken L.toLib (postCreateUpdateAPIHandler L) r σ
        = postCreateUpdateAPIHandler L r σ := by
      simp only [ReqToken, h, hu]
    rw [hR]
    unfold postCreateUpdateAPIHandler
    cases hd : L.decodePost r.Body with
    | error err =>
      exact Or.inr ⟨.postResponse { Error := err.Error, Post := Post.zero }, rfl, rfl⟩
    | ok req =>
      dsimp only
      rw [h]
      dsimp only
      cases hg : σ.db.GetUserByUsername au with
      | mk user uerr =>
        rw [hg] at hu
        dsimp only at hu
        subst hu
        dsimp only
        cases hv : ({ req with UserID := user.ID } : Post).Validate with
        | some e =>
          exact Or.inr ⟨.postResponse { Error := e.Error, Post := Post.zero }, rfl, rfl⟩
        | none =>
          dsimp only
          cases hs : σ.db.SavePost σ.now { req with UserID := user.ID } with
          | mk db pe =>
            obtain ⟨post, serr⟩ := pe
            cases serr with
            | some e =>
              exact Or.inr ⟨.postResponse { Error := e.Error, Post := Post.zero }, rfl, rfl⟩
            | none => exact Or.inl ⟨db, post, rfl⟩
  · intro req au err hd h
    unfold postCreateUpdateAPIHandler
    rcases h with h | ⟨h, user, hu⟩
    · simp only [hd, h]
      rfl
    · simp only [hd, h, hu]
      rfl

/-- C13 (amended), at a concrete input: alice sends her token and a body that does not
decode; the data of the response is a structure with an error field. -/
theorem postRoute_error_bodies_witness :
    ∃ data, data.hasErrorField = true ∧
      ReqToken refWebLib.toLib (postCreateUpdateAPIHandler refWebLib)
          (Example.tokenRequest "no bars")
          { w := Example.freshWriter, db := Example.registeredDB, now := Example.clock }
        = .done { w := answer Example.freshWriter 400 (some data),
                  db := Example.registeredDB, now := Example.clock } :=
  ((postRoute_error_bodies refWebLib (Example.tokenRequest "no bars")
      { w := Example.freshWriter, db := Example.registeredDB, now := Example.clock }).2.2.1
    "alice" (Example.tokenRequest_user _) (by decide)).elim
    (fun h => h.elim fun db h => h.elim fun post h => by
      have hR : ReqToken refWebLib.toLib (postCreateUpdateAPIHandler refWebLib)
          (Example.tokenRequest "no bars")
          { w := Example.freshWriter, db := Example.registeredDB, now := Example.clock }
          = .done { w := answer Example.freshWriter 400
                      (some (.postResponse { Error := "invalid character", Post := Post.zero })),
                    db := Example.registeredDB, now := Example.clock } := by
        simp only [ReqToken, Example.tokenRequest_user]
        rfl
      rw [hR] at h
      have hc := congrArg (fun o => match o with
        | Outcome.done σ => σ.w.calls.get? 1
        | Outcome.panic _ => none) h
      simp [answer, ResponseWriter.call, Example.freshWriter, StatusCreated] at hc)
    (fun h => h)

/-- C13 as stated fails for a request that the token guard rejects: without Authorization
header the data of the response is the bare string "invalid header", not a structure with
an error field; and with the token of a user that the store does not hold, the response
has status 401 and no data at all. -/
theorem postRoute_bare_string :
    ReqToken refWebLib.toLib (postCreateUpdateAPIHandler refWebLib)
        (Example.request "" "hi|Hi|x" { Values := [] })
        { w := Example.freshWriter, db := Example.registeredDB, now := Example.clock }
      = .done { w := answer Example.freshWriter 400 (some (.string "invalid header")),
                db := Example.registeredDB, now := Example.clock } ∧
    (Payload.string "invalid header").hasErrorField = false ∧
    ReqToken refWebLib.toLib (postCreateUpdateAPIHandler refWebLib)
        (Example.tokenRequest "hi|Hi|x")
        { w := Example.freshWriter, db := Example.emptyDB, now := Example.clock }
      = .done { w := answer Example.freshWriter 401 none,
                db := Example.emptyDB, now := Example.clock } ∧
    (answer Example.freshWriter 401 none).calls
      = [.SetHeader "Content-Type" "application/json; charset=utf-8", .WriteHeader 401] := by
  refine ⟨rfl, rfl, ?_, rfl⟩
  simp only [ReqToken, Example.tokenRequest_user]
  rfl
/-- The handler saves the post when the body decodes, the token and the user resolve and
the post is valid. -/
theorem postCreateUpdateAPIHandler_saved (L : WebLib) (r : Request) (σ : World) (req : Post)
    (au : String) (user : User) (db : DB) (post : Post)
    (hd : L.decodePost r.Body = .ok req)
    (ht : getUserFromToken L.toLib σ.now.Unix r = (au, none))
    (hu : σ.db.GetUserByUsername au = (user, none))
    (hv : ({ req with UserID := user.ID } : Post).Validate = none)
    (hs : σ.db.SavePost σ.now { req with UserID := user.ID } = (db, post, none)) :
    postCreateUpdateAPIHandler L r σ
      = .done { w := answer σ.w StatusCreated
                  (some (.postResponse { Error := "", Post := post })),
                db := db, now := σ.now } := by
  simp only [postCreateUpdateAPIHandler, hd, ht, hu, hv, hs]

theorem Example.tokenRequest_user_later (body : String) :
    getUserFromToken refWebLib.toLib Example.later.Unix (Example.tokenRequest body)
      = ("alice", none) :=
  getUserFromToken_bearer refWebLib.toLib refWebLib_lawful "alice" 100 _ _
    (Or.inr (by decide)) rfl

/-- C16 fails on the code: the post "hi" is first saved at the time `clock`, which is its
stored creation time; alice saves the same slug again at the time `later`, through
`postSaveHandler` or, with a body that has no creation time, through
`postCreateUpdateAPIHandler`, and the stored creation time is then `later`. -/
theorem postSaveHandler_resets_created :
    (Example.postedDB.posts.find? (fun row => row.slug = "hi")).map (fun row => row.created)
      = some Example.clock ∧
    Example.later ≠ Example.clock ∧
    (∃ σ' : World,
      postSaveHandler refWebLib
          (Example.form [("slug", "hi"), ("title", "Hi again"), ("body", "y")]
            Example.aliceSession)
          { w := Example.freshWriter, db := Example.postedDB, now := Example.later }
        = .done σ' ∧
      (σ'.db.posts.find? (fun row => row.slug = "hi")).map (fun row => row.created)
        = some Example.later) ∧
    (∃ σ' : World,
      postCreateUpdateAPIHandler refWebLib (Example.tokenRequest "hi|Hi again|y")
          { w := Example.freshWriter, db := Example.postedDB, now := Example.later }
        = .done σ' ∧
      (σ'.db.posts.find? (fun row => row.slug = "hi")).map (fun row => row.created)
        = some Example.later) :=
  ⟨by decide, by decide, ⟨_, rfl, by decide⟩,
    ⟨_, postCreateUpdateAPIHandler_saved refWebLib (Example.tokenRequest "hi|Hi again|y")
      { w := Example.freshWriter, db := Example.postedDB, now := Example.later }
      { Slug := "hi", UserID := 0, Author := "", Title := "Hi again", Body := "y",
        Created := Time.zero, Modified := Time.zero }
      "alice" { ID := 1, Username := "alice", Name := "Alice", Password := "$2a$10$pw1" }
      _ _ rfl (Example.tokenRequest_user_later _) (by decide) (by decide) rfl, by decide⟩⟩

/-! ## Sessions -/

theorem lookup_filter_key {β : Type} (m : List (String × β)) (k k' : String) :
    (m.filter (fun e => e.1 ≠ k)).lookup k' = if k' = k then none else m.lookup k' := by
  induction m with
  | nil => simp
  | cons e m ih =>
    obtain ⟨k1, v1⟩ := e
    by_cases h1 : k1 = k
    · subst h1
      have hf : List.filter (fun e => decide (e.1 ≠ k1)) ((k1, v1) :: m)
          = List.filter (fun e => decide (e.1 ≠ k1)) m := by
        simp [List.filter_cons]
      rw [hf, ih, List.lookup_cons]
      by_cases h : k' = k1
      · simp [h]
      · have : (k' == k1) = false := by simp [h]
        simp [h, this]
    · have hf : List.filter (fun e => decide (e.1 ≠ k)) ((k1, v1) :: m)
          = (k1, v1) :: List.filter (fun e => decide (e.1 ≠ k)) m := by
        simp [List.filter_cons, h1]
      rw [hf, List.lookup_cons, List.lookup_cons, ih]
      by_cases h : k' = k1
      · subst h
        simp [h1]
      · have : (k' == k1) = false := by simp [h]
        simp [this]

theorem Session.set_lookup (s : Session) (k k' : String) (v : SessionValue) :
    (s.set k v).Values.lookup k' = if k' = k then some v else s.Values.lookup k' := by
  unfold Session.set
  rw [List.lookup_cons, lookup_filter_key]
  by_cases h : k' = k
  · simp [h]
  · have : (k' == k) = false := by simp [h]
    simp [h, this]

theorem Session.delete_lookup (s : Session) (k k' : String) :
    (s.delete k).Values.lookup k' = if k' = k then none else s.Values.lookup k' := by
  unfold Session.delete
  exact lookup_filter_key _ _ _
theorem SessionInv_set (U : User → Prop) (s : Session) (k : String) (v : SessionValue)
    (h1 : k ≠ "activeUser") (h2 : k ≠ "activeUserID") (h3 : k ≠ "_flash")
    (h : SessionInv U s) : SessionInv U (s.set k v) := by
  unfold SessionInv at h ⊢
  simp only [Session.set_lookup, Ne.symm h1, Ne.symm h2, Ne.symm h3, if_false]
  exact h

theorem SessionInv_delete (U : User → Prop) (s : Session) (k : String)
    (h1 : k ≠ "activeUser") (h2 : k ≠ "activeUserID")
    (h : SessionInv U s) : SessionInv U (s.delete k) := by
  unfold SessionInv at h ⊢
  simp only [Session.delete_lookup, Ne.symm h1, Ne.symm h2, if_false]
  refine ⟨h.1, ?_⟩
  by_cases h3 : "_flash" = k
  · simp [h3]
  · simp only [h3, if_false]
    exact h.2

theorem SessionInv_AddFlash (U : User → Prop) (s s' : Session) (msg : String)
    (h : SessionInv U s) (ha : s.AddFlash msg = some s') : SessionInv U s' := by
  unfold Session.AddFlash at ha
  have key : ∀ fs, SessionInv U (s.set "_flash" (.flashes fs)) := by
    intro fs
    unfold SessionInv at h ⊢
    simp only [Session.set_lookup]
    refine ⟨?_, Or.inr ⟨fs, by simp⟩⟩
    have e1 : ("activeUser" = "_flash") = False := by decide
    have e2 : ("activeUserID" = "_flash") = False := by decide
    simp only [e1, e2, if_false]
    exact h.1
  split at ha
  · cases ha; exact key _
  · cases ha; exact key _
  · cases ha

theorem SessionInv_Flashes (U : User → Prop) (s s' : Session) (fs : List String)
    (h : SessionInv U s) (hf : s.Flashes = some (fs, s')) : SessionInv U s' := by
  unfold Session.Flashes at hf
  split at hf
  · cases hf; exact h
  · cases hf; exact SessionInv_delete U s "_flash" (by decide) (by decide) h
  · cases hf

theorem SessionInv_login (U : User → Prop) (s : Session) (u : User) (hu : U u)
    (h : SessionInv U s) :
    SessionInv U
      ((s.set "activeUser" (.string u.Username)).set "activeUserID" (.int64 u.ID)) := by
  unfold SessionInv at h ⊢
  simp only [Session.set_lookup]
  have e1 : ("activeUser" = "activeUserID") = False := by decide
  have e2 : ("_flash" = "activeUserID") = False := by decide
  have e3 : ("_flash" = "activeUser") = False := by decide
  simp only [e1, e2, e3, if_true, if_false]
  exact ⟨Or.inr ⟨u, hu, rfl, rfl⟩, h.2⟩

theorem SessionInv_logout (U : User → Prop) (s : Session) (h : SessionInv U s) :
    SessionInv U ((s.delete "activeUser").delete "activeUserID") := by
  unfold SessionInv at h ⊢
  simp only [Session.delete_lookup]
  have e1 : ("activeUser" = "activeUserID") = False := by decide
  have e2 : ("_flash" = "activeUserID") = False := by decide
  have e3 : ("_flash" = "activeUser") = False := by decide
  simp only [e1, e2, e3, if_true, if_false]
  exact ⟨Or.inl (by simp), h.2⟩

theorem SessionInv_empty (U : User → Prop) : SessionInv U { Values := [] } :=
  ⟨Or.inl ⟨rfl, rfl⟩, Or.inl rfl⟩

theorem GetUserByUsername_mem (db : DB) (name : String) (u : User)
    (h : db.GetUserByUsername name = (u, none)) : u ∈ db.users := by
  unfold DB.GetUserByUsername at h
  split at h
  · cases h
  · split at h
    · cases h
    · split at h
      · cases h
      · rename_i u' hfind
        cases h
        exact List.mem_of_find?_eq_some hfind

/-! ### The cookies that the handlers set -/

theorem savedSessions_call (w : ResponseWriter) (c : WriterCall) :
    savedSessions (w.call c).calls = savedSessions w.calls ++ savedSessions [c] := by
  simp [savedSessions, ResponseWriter.call, List.filterMap_append]

theorem mem_savedSessions_Save (L : WebLib) (x s : Session) (w : ResponseWriter)
    (h : s ∈ savedSessions (x.Save L w).calls) : s ∈ savedSessions w.calls ∨ s = x := by
  unfold Session.Save at h
  split at h
  · exact Or.inl h
  · rw [savedSessions_call] at h
    simp only [List.mem_append] at h
    rcases h with h | h
    · exact Or.inl h
    · right
      simpa [savedSessions] using h

/-- A handler that saves the session `x` and then redirects sets no other cookie. -/
theorem saved_flashRedirect (L : WebLib) (x s : Session) (σ σ' : World) (url : String)
    (code : Nat) (hw : σ.w.calls = [])
    (h : σ.reply ((x.Save L σ.w).call (.Redirect url code)) = .done σ')
    (hs : s ∈ savedSessions σ'.w.calls) : s = x := by
  unfold World.reply at h
  cases h
  rw [savedSessions_call] at hs
  simp only [List.mem_append] at hs
  rcases hs with hs | hs
  · rcases mem_savedSessions_Save L x s σ.w hs with h1 | h1
    · rw [hw] at h1; simp [savedSessions] at h1
    · exact h1
  · simp [savedSessions] at hs

/-- A handler that only reports an error sets no cookie. -/
theorem saved_error (σ σ' : World) (msg : String) (code : Nat) (s : Session)
    (hw : σ.w.calls = []) (h : σ.reply (σ.w.call (.Error msg code)) = .done σ')
    (hs : s ∈ savedSessions σ'.w.calls) : False := by
  unfold World.reply at h
  cases h
  rw [savedSessions_call, hw] at hs
  simp [savedSessions] at hs
theorem userLogoutHandler_inv (L : WebLib) (U : User → Prop) (r : Request) (σ σ' : World)
    (s : Session) (hInv : SessionInv U r.session) (hw : σ.w.calls = [])
    (h : userLogoutHandler L r σ = .done σ') (hs : s ∈ savedSessions σ'.w.calls) :
    SessionInv U s := by
  unfold userLogoutHandler at h
  split at h
  · exact (saved_error σ σ' _ _ s hw h hs).elim
  · rw [saved_flashRedirect L _ s σ σ' _ _ hw h hs]
    exact SessionInv_logout U _ hInv

theorem userAuthenticateHandler_inv (L : WebLib) (U : User → Prop) (r : Request)
    (σ σ' : World) (s : Session) (hInv : SessionInv U r.session) (hw : σ.w.calls = [])
    (hU : ∀ u ∈ σ.db.users, U u)
    (h : userAuthenticateHandler L r σ = .done σ') (hs : s ∈ savedSessions σ'.w.calls) :
    SessionInv U s := by
  unfold userAuthenticateHandler at h
  split at h
  · exact (saved_error σ σ' _ _ s hw h hs).elim
  · split at h
    · exact (saved_error σ σ' _ _ s hw h hs).elim
    · try dsimp only at h
      split at h
      · split at h
        · cases h
        · rename_i x hx
          rw [saved_flashRedirect L _ s σ σ' _ _ hw h hs]
          exact SessionInv_AddFlash U _ _ _ hInv hx
      · rename_i user huser
        split at h
        · split at h
          · cases h
          · rename_i x hx
            rw [saved_flashRedirect L _ s σ σ' _ _ hw h hs]
            exact SessionInv_AddFlash U _ _ _ hInv hx
        · rw [saved_flashRedirect L _ s σ σ' _ _ hw h hs]
          exact SessionInv_login U _ user (hU user (GetUserByUsername_mem _ _ _ huser)) hInv

theorem saved_redirect_db (σ σ' : World) (db : DB) (url : String) (code : Nat) (s : Session)
    (hw : σ.w.calls = [])
    (h : Outcome.done { w := σ.w.call (.Redirect url code), db := db, now := σ.now }
      = .done σ')
    (hs : s ∈ savedSessions σ'.w.calls) : False := by
  cases h
  rw [savedSessions_call, hw] at hs
  simp [savedSessions] at hs

theorem userSaveHandler_inv (L : WebLib) (U : User → Prop) (r : Request) (σ σ' : World)
    (s : Session) (hInv : SessionInv U r.session) (hw : σ.w.calls = [])
    (h : userSaveHandler L r σ = .done σ') (hs : s ∈ savedSessions σ'.w.calls) :
    SessionInv U s := by
  unfold userSaveHandler at h
  split at h
  · exact (saved_error σ σ' _ _ s hw h hs).elim
  · split at h
    · exact (saved_error σ σ' _ _ s hw h hs).elim
    · try dsimp only at h
      split at h
      · split at h
        · cases h
        · rename_i x hx
          rw [saved_flashRedirect L _ s σ σ' _ _ hw h hs]
          exact SessionInv_set U _ _ _ (by decide) (by decide) (by decide)
            (SessionInv_AddFlash U _ _ _ hInv hx)
      · split at h
        · split at h
          · cases h
          · rename_i x hx
            rw [saved_flashRedirect L _ s σ σ' _ _ hw h hs]
            exact SessionInv_set U _ _ _ (by decide) (by decide) (by decide)
              (SessionInv_AddFlash U _ _ _ hInv hx)
        · split at h
          · split at h
            · cases h
            · rename_i x hx
              rw [saved_flashRedirect L _ s σ σ' _ _ hw h hs]
              exact SessionInv_set U _ _ _ (by decide) (by decide) (by decide)
                (SessionInv_AddFlash U _ _ _ hInv hx)
          · exact (saved_redirect_db σ σ' _ _ _ s hw h hs).elim

theorem postSaveHandler_inv (L : WebLib) (U : User → Prop) (r : Request) (σ σ' : World)
    (s : Session) (hInv : SessionInv U r.session) (hw : σ.w.calls = [])
    (h : postSaveHandler L r σ = .done σ') (hs : s ∈ savedSessions σ'.w.calls) :
    SessionInv U s := by
  unfold postSaveHandler at h
  split at h
  · exact (saved_error σ σ' _ _ s hw h hs).elim
  · try dsimp only at h
    split at h
    · exact (saved_error σ σ' _ _ s hw h hs).elim
    · split at h
      · try dsimp only at h
        split at h
        · split at h
          · cases h
          · rename_i x hx
            rw [saved_flashRedirect L _ s σ σ' _ _ hw h hs]
            exact SessionInv_set U _ _ _ (by decide) (by decide) (by decide)
              (SessionInv_AddFlash U _ _ _ hInv hx)
        · split at h
          · split at h
            · cases h
            · rename_i x hx
              rw [saved_flashRedirect L _ s σ σ' _ _ hw h hs]
              exact SessionInv_set U _ _ _ (by decide) (by decide) (by decide)
                (SessionInv_AddFlash U _ _ _ hInv hx)
          · exact (saved_redirect_db σ σ' _ _ _ s hw h hs).elim
      · cases h
/-- The cookies after `PrepareData` are those before it and the session without its flash
messages. -/
theorem PrepareData_saved (L : WebLib) (r : Request) (x x' : Session) (w w' : ResponseWriter)
    (data data' : List (String × SessionValue)) (s : Session)
    (h : PrepareData L r x w data = some (w', data', x'))
    (hs : s ∈ savedSessions w'.calls) :
    s ∈ savedSessions w.calls ∨ ∃ fs, x.Flashes = some (fs, s) := by
  unfold PrepareData at h
  split at h
  · simp only [Option.some.injEq, Prod.mk.injEq] at h
    rw [← h.1, savedSessions_call] at hs
    left
    simpa [savedSessions] using hs
  · split at h
    · cases h
    · rename_i flashes session hf
      have hw' : w' = (if flashes.length > 0 then
          (session.Save L w, data ++ [("Flashes", SessionValue.flashes flashes)])
          else (w, data)).1 := by
        dsimp only at h
        cases hl : List.lookup "activeUser" session.Values with
        | none =>
          rw [hl] at h
          simp only [Option.some.injEq, Prod.mk.injEq] at h
          exact h.1.symm
        | some v =>
          rw [hl] at h
          simp only [Option.some.injEq, Prod.mk.injEq] at h
          exact h.1.symm
      rw [hw'] at hs
      split at hs
      · rcases mem_savedSessions_Save L _ s w hs with h1 | h1
        · exact Or.inl h1
        · exact Or.inr ⟨flashes, by rw [hf, h1]⟩
      · exact Or.inl hs

theorem render_saved (L : WebLib) (r : Request) (x : Session) (σ σ' : World)
    (w : ResponseWriter) (data : List (String × SessionValue)) (s : Session)
    (h : render L r x σ w data = .done σ') (hs : s ∈ savedSessions σ'.w.calls) :
    s ∈ savedSessions w.calls ∨ ∃ fs, x.Flashes = some (fs, s) := by
  unfold render at h
  split at h
  · cases h
  · rename_i w1 data1 x1 hP
    apply PrepareData_saved L r x x1 w w1 data data1 s hP
    dsimp only at h
    split at h
    · unfold World.reply at h
      cases h
      rw [savedSessions_call, savedSessions_call] at hs
      simpa [savedSessions] using hs
    · unfold World.reply at h
      cases h
      rw [savedSessions_call] at hs
      simpa [savedSessions] using hs

theorem render_inv (L : WebLib) (U : User → Prop) (r : Request) (x : Session) (σ σ' : World)
    (w : ResponseWriter) (data : List (String × SessionValue)) (s : Session)
    (hx : SessionInv U x) (hw : ∀ t ∈ savedSessions w.calls, SessionInv U t)
    (h : render L r x σ w data = .done σ') (hs : s ∈ savedSessions σ'.w.calls) :
    SessionInv U s := by
  rcases render_saved L r x σ σ' w data s h hs with h1 | ⟨fs, h1⟩
  · exact hw s h1
  · exact SessionInv_Flashes U x s fs hx h1

theorem saved_Save_fresh (L : WebLib) (U : User → Prop) (x : Session) (w : ResponseWriter)
    (hw : w.calls = []) (hx : SessionInv U x) :
    ∀ t ∈ savedSessions (x.Save L w).calls, SessionInv U t := by
  intro t ht
  rcases mem_savedSessions_Save L x t w ht with h1 | h1
  · rw [hw] at h1; simp [savedSessions] at h1
  · rw [h1]; exact hx

theorem saved_fresh (U : User → Prop) (w : ResponseWriter) (hw : w.calls = []) :
    ∀ t ∈ savedSessions w.calls, SessionInv U t := by
  intro t ht
  rw [hw] at ht
  simp [savedSessions] at ht

theorem postCreateHandler_inv (L : WebLib) (U : User → Prop) (files : List String)
    (r : Request) (σ σ' : World) (s : Session) (hInv : SessionInv U r.session)
    (hw : σ.w.calls = [])
    (h : postCreateHandler L files r σ = .done σ') (hs : s ∈ savedSessions σ'.w.calls) :
    SessionInv U s := by
  unfold postCreateHandler at h
  split at h
  · exact (saved_error σ σ' _ _ s hw h hs).elim
  · split at h
    · exact (saved_error σ σ' _ _ s hw h hs).elim
    · have hd := SessionInv_delete U r.session "currentPost" (by decide) (by decide) hInv
      split at h
      · exact render_inv L U r _ σ σ' _ _ s hd (saved_Save_fresh L U _ σ.w hw hd) h hs
      · exact render_inv L U r _ σ σ' _ _ s hInv (saved_fresh U σ.w hw) h hs

theorem userCreateHandler_inv (L : WebLib) (U : User → Prop) (files : List String)
    (r : Request) (σ σ' : World) (s : Session) (hInv : SessionInv U r.session)
    (hw : σ.w.calls = [])
    (h : userCreateHandler L files r σ = .done σ') (hs : s ∈ savedSessions σ'.w.calls) :
    SessionInv U s := by
  unfold userCreateHandler at h
  split at h
  · exact (saved_error σ σ' _ _ s hw h hs).elim
  · split at h
    · exact (saved_error σ σ' _ _ s hw h hs).elim
    · have hd := SessionInv_delete U r.session "currentUser" (by decide) (by decide) hInv
      split at h
      · exact render_inv L U r _ σ σ' _ _ s hd (saved_Save_fresh L U _ σ.w hw hd) h hs
      · exact render_inv L U r _ σ σ' _ _ s hInv (saved_fresh U σ.w hw) h hs

/-- Every session that a client can hold has the identity invariant. -/
theorem Reachable.inv (L : WebLib) (U : User → Prop) (s : Session) (h : Reachable L U s) :
    SessionInv U s := by
  induction h with
  | empty => exact SessionInv_empty U
  | handler h r σ σ' s hh _ hw hU hrun hs ih =>
    rcases hh with rfl | rfl | rfl | rfl | ⟨files, rfl⟩ | ⟨files, rfl⟩
    · exact userAuthenticateHandler_inv L U r σ σ' s ih hw hU hrun hs
    · exact userLogoutHandler_inv L U r σ σ' s ih hw hrun hs
    · exact userSaveHandler_inv L U r σ σ' s ih hw hrun hs
    · exact postSaveHandler_inv L U r σ σ' s ih hw hrun hs
    · exact postCreateHandler_inv L U files r σ σ' s ih hw hrun hs
    · exact userCreateHandler_inv L U files r σ σ' s ih hw hrun hs
  | prepare r w w' data data' s' s _ hw hP hs ih =>
    rcases PrepareData_saved L r r.session s' w w' data data' s hP hs with h1 | ⟨fs, h1⟩
    · rw [hw] at h1; simp [savedSessions] at h1
    · exact SessionInv_Flashes U r.session s fs ih h1

/-- With the identity invariant, neither the session guard nor `postSaveHandler` behind it
panics. -/
theorem ReqAuth_postSaveHandler_no_panic (L : WebLib) (U : User → Prop) (r : Request)
    (σ : World) (hInv : SessionInv U r.session) (msg : String) :
    ReqAuth (postSaveHandler L) r σ ≠ .panic msg := by
  obtain ⟨hid, hflash⟩ := hInv
  have hadd : ∀ m, r.session.AddFlash m ≠ none := by
    intro m
    unfold Session.AddFlash
    rcases hflash with hf | ⟨fs, hf⟩ <;> simp [hf]
  unfold ReqAuth
  cases he : r.sessionErr with
  | some e => simp
  | none =>
    dsimp only
    rcases hid with ⟨h1, _⟩ | ⟨u, _, h1, h2⟩
    · simp [h1]
    · simp only [h1]
      cases hg : (σ.db.GetUserByUsername u.Username).2 with
      | some e => simp
      | none =>
        dsimp only
        unfold postSaveHandler
        cases hp : L.parseFormErr r with
        | some e => simp [World.reply]
        | none =>
          simp only [he, h2]
          split
          · split
            · rename_i hx; exact absurd hx (hadd _)
            · simp [World.reply]
          · split
            · split
              · rename_i hx; exact absurd hx (hadd _)
              · simp [World.reply]
            · simp
/-- C19. In every session that a client can hold, starting from the empty session and
taking the cookies that the web handlers and `PrepareData` set: "activeUser" is present
exactly when "activeUserID" is; when present they hold, as a string and an `int64`, the
username and the id of one user row that the store held at a login; and for a request
with such a session neither the session guard nor `postSaveHandler` behind it panics, so
the type assertion on "activeUserID" does not fail. -/
theorem session_identity (L : WebLib) (U : User → Prop) (s : Session)
    (h : Reachable L U s) :
    ((s.Values.lookup "activeUser").isSome ↔ (s.Values.lookup "activeUserID").isSome) ∧
    (∀ v, s.Values.lookup "activeUser" = some v →
      ∃ u, U u ∧ v = .string u.Username ∧
        s.Values.lookup "activeUserID" = some (.int64 u.ID)) ∧
    (∀ (r : Request) (σ : World) (msg : String), r.session = s →
      ReqAuth (postSaveHandler L) r σ ≠ .panic msg) := by
  have hInv := Reachable.inv L U s h
  refine ⟨?_, ?_, ?_⟩
  · rcases hInv.1 with ⟨h1, h2⟩ | ⟨u, _, h1, h2⟩ <;> simp [h1, h2]
  · intro v hv
    rcases hInv.1 with ⟨h1, _⟩ | ⟨u, hu, h1, h2⟩
    · rw [h1] at hv; cases hv
    · rw [h1] at hv
      cases hv
      exact ⟨u, hu, rfl, h2⟩
  · intro r σ msg hr
    subst hr
    exact ReqAuth_postSaveHandler_no_panic L U r σ hInv msg

/-- C19, at a concrete input: the session that the login of alice sets as a cookie, and
a post request of hers with it. -/
theorem session_identity_witness :
    (∃ u ∈ Example.registeredDB.users,
      SessionValue.string "alice" = .string u.Username ∧
      Example.aliceSession.Values.lookup "activeUserID" = some (.int64 u.ID)) ∧
    ReqAuth (postSaveHandler refWebLib)
        (Example.form [("slug", "hi"), ("title", "Hi")] Example.aliceSession)
        { w := Example.freshWriter, db := Example.registeredDB, now := Example.clock }
      ≠ .panic assertionPanic :=
  have h := session_identity refWebLib (fun u => u ∈ Example.registeredDB.users)
    Example.aliceSession
    (Reachable.handler (userAuthenticateHandler refWebLib)
      (Example.form [("username", "alice"), ("password", "pw1")] { Values := [] })
      { w := Example.freshWriter, db := Example.registeredDB, now := Example.clock }
      { w := (Example.aliceSession.Save refWebLib Example.freshWriter).call
               (.Redirect "/" StatusFound),
        db := Example.registeredDB, now := Example.clock }
      Example.aliceSession (Or.inl rfl) Reachable.empty rfl (fun _ hu => hu) rfl
      (by decide))
  ⟨h.2.1 _ rfl, h.2.2 _ _ _ rfl⟩
end Blog
